import Mathlib

/-!
Verification of the Lox tree-walking interpreter (Rust sources under src/).

The Rust sources are shallowly embedded: each Rust function is translated
into an executable Lean definition over explicit state.  Shared mutable
data (environments, instance field maps) is modelled by explicit heaps of
association lists addressed by natural numbers; `Rc<Environment>` becomes
an address into the environment heap.  Machine floats (f64) carry no
claim-relevant behaviour here, so numeric payloads are modelled as
rationals.  Recursion that is unbounded in Rust (the evaluator, the
parser loop, the scanner loop, environment-chain walks) is made total
with an explicit fuel parameter; running out of fuel is the `none`
result, distinct from every behaviour of the program.  Rust panics
(`unwrap` on `None`, explicit `panic!`) are modelled by a distinguished
`panic` outcome.
-/

namespace Lox

/-- Modelled from the spec: `token_type.rs` is referenced by every other
module (`crate::token_type::TokenType`) but is not present under `src/`.
The spec describes the token kind as "one of ~40 enumerated values —
punctuators, single/double-char operators, literals, keywords, EOF";
the variant names below are the ones the other source files use. -/
inductive TokenType where
  | LEFT_PAREN | RIGHT_PAREN | LEFT_BRACE | RIGHT_BRACE
  | COMMA | DOT | MINUS | PLUS | SEMICOLON | SLASH | STAR
  | BANG | BANG_EQUAL | EQUAL | EQUAL_EQUAL
  | GREATER | GREATER_EQUAL | LESS | LESS_EQUAL
  | IDENTIFIER | STRING | NUMBER
  | AND | CLASS | ELSE | FALSE | FUN | FOR | IF | NIL | OR
  | PRINT | RETURN | SUPER | THIS | TRUE | VAR | WHILE
  | EOF
  deriving DecidableEq, Repr

/-- The fragment of `token.rs`'s `LiteralValue` that tokens and literal
expressions can actually carry: the scanner only builds `String` and
`Number` payloads, and the parser additionally builds `Boolean` literal
expressions.  (The Rust enum also has `LoxCallable` / `LoxInstance`
variants, which only arise as runtime values; those are modelled
separately as `Value` below, with `LiteralValue.toValue` the inclusion.) -/
inductive LiteralValue where
  | String (s : String)
  | Number (n : ℚ)
  | Boolean (b : Bool)
  deriving DecidableEq, Repr

/-- `token.rs`: `Token { r#type, lexeme, literal, line, col }`.
Derived `PartialEq` compares all five fields. -/
structure Token where
  type : TokenType
  lexeme : String
  literal : Option LiteralValue
  line : Nat
  col : Nat
  deriving DecidableEq, Repr

/-- The token record as the scanner actually constructs it:
`scanner.rs`'s `add_token` calls `Token::new(r#type, text, literal, self.line)`
with four arguments, supplying no column (and `token.rs`'s `Token::new`
has five parameters — the two files do not agree).  We embed the tuple of
fields the scanner provides. -/
structure SToken where
  type : TokenType
  lexeme : String
  literal : Option LiteralValue
  line : Nat
  deriving DecidableEq, Repr

/-- `expr.rs`: the expression tree.  Each Rust per-variant struct is
inlined as named constructor fields. -/
inductive Expr where
  | Assign (name : Token) (value : Expr)
  | Binary (left : Expr) (operator : Token) (right : Expr)
  | Call (callee : Expr) (paren : Token) (arguments : List Expr)
  | Get (object : Expr) (name : Token)
  | Grouping (expression : Expr)
  | Literal (value : Option LiteralValue)
  | Logical (left : Expr) (operator : Token) (right : Expr)
  | Set (object : Expr) (name : Token) (value : Expr)
  | This (keyword : Token)
  | Unary (operator : Token) (right : Expr)
  | Variable (name : Token)
  deriving Repr

mutual
/-- `stmt.rs`: the statement tree.  `Class.superclass` is
`Option<Variable>` in Rust; a `Variable` node is just its name token. -/
inductive Stmt where
  | Block (statements : List Stmt)
  | Class (name : Token) (superclass : Option Token) (methods : List FunctionDecl)
  | Expression (expression : Expr)
  | Function (function : FunctionDecl)
  | If (condition : Expr) (thenBranch : Stmt) (elseBranch : Option Stmt)
  | Print (expression : Expr)
  | Return (keyword : Token) (value : Option Expr)
  | Var (name : Token) (initializer : Option Expr)
  | While (condition : Expr) (body : Stmt)
  deriving Repr

/-- `stmt.rs`: `Function { name, params, body }`. -/
inductive FunctionDecl where
  | mk (name : Token) (params : List Token) (body : List Stmt)
  deriving Repr
end

def FunctionDecl.name : FunctionDecl → Token
  | .mk n _ _ => n

def FunctionDecl.params : FunctionDecl → List Token
  | .mk _ p _ => p

def FunctionDecl.body : FunctionDecl → List Stmt
  | .mk _ _ b => b

/-! Structural equality on the syntax tree, mirroring the derived
`PartialEq` of `expr.rs` / `stmt.rs` (field-by-field comparison). -/

mutual
def Expr.beqE : Expr → Expr → Bool
  | .Assign n v, .Assign n' v' => n == n' && Expr.beqE v v'
  | .Binary l o r, .Binary l' o' r' => Expr.beqE l l' && o == o' && Expr.beqE r r'
  | .Call c p a, .Call c' p' a' => Expr.beqE c c' && p == p' && Expr.beqListE a a'
  | .Get o n, .Get o' n' => Expr.beqE o o' && n == n'
  | .Grouping e, .Grouping e' => Expr.beqE e e'
  | .Literal v, .Literal v' => v == v'
  | .Logical l o r, .Logical l' o' r' => Expr.beqE l l' && o == o' && Expr.beqE r r'
  | .Set o n v, .Set o' n' v' => Expr.beqE o o' && n == n' && Expr.beqE v v'
  | .This k, .This k' => k == k'
  | .Unary o r, .Unary o' r' => o == o' && Expr.beqE r r'
  | .Variable n, .Variable n' => n == n'
  | _, _ => false

def Expr.beqListE : List Expr → List Expr → Bool
  | [], [] => true
  | a :: as, b :: bs => Expr.beqE a b && Expr.beqListE as bs
  | _, _ => false
end

def Expr.beqOptE : Option Expr → Option Expr → Bool
  | none, none => true
  | some a, some b => Expr.beqE a b
  | _, _ => false

mutual
def Stmt.beqS : Stmt → Stmt → Bool
  | .Block s, .Block s' => Stmt.beqListS s s'
  | .Class n sc m, .Class n' sc' m' => n == n' && sc == sc' && Stmt.beqListF m m'
  | .Expression e, .Expression e' => Expr.beqE e e'
  | .Function f, .Function f' => Stmt.beqF f f'
  | .If c t e, .If c' t' e' => Expr.beqE c c' && Stmt.beqS t t' && Stmt.beqOptS e e'
  | .Print e, .Print e' => Expr.beqE e e'
  | .Return k v, .Return k' v' => k == k' && Expr.beqOptE v v'
  | .Var n i, .Var n' i' => n == n' && Expr.beqOptE i i'
  | .While c b, .While c' b' => Expr.beqE c c' && Stmt.beqS b b'
  | _, _ => false

def Stmt.beqListS : List Stmt → List Stmt → Bool
  | [], [] => true
  | a :: as, b :: bs => Stmt.beqS a b && Stmt.beqListS as bs
  | _, _ => false

def Stmt.beqOptS : Option Stmt → Option Stmt → Bool
  | none, none => true
  | some a, some b => Stmt.beqS a b
  | _, _ => false

def Stmt.beqF : FunctionDecl → FunctionDecl → Bool
  | .mk n p b, .mk n' p' b' => n == n' && p == p' && Stmt.beqListS b b'

def Stmt.beqListF : List FunctionDecl → List FunctionDecl → Bool
  | [], [] => true
  | a :: as, b :: bs => Stmt.beqF a b && Stmt.beqListF as bs
  | _, _ => false
end

/-! ## Scanner (`scanner.rs`)

The scanner state mirrors `struct Scanner` (source as a char vector,
token list, `start`, `current`, `line`).  `main.rs`'s `error(line, msg)`
sink is modelled by an error list plus the `HAD_ERROR` flag.  The inner
and outer scanning loops get fuel; every actual run of the scanner is
reproduced by any sufficiently large fuel. -/

namespace Scanner

structure SState where
  source : List Char
  tokens : List SToken
  start : Nat
  current : Nat
  line : Nat
  errors : List (Nat × String)
  hadError : Bool
  deriving Repr

/-- The 16-entry keyword table from `Scanner::new`. -/
def keywords (s : String) : Option TokenType :=
  if s = "and" then some .AND
  else if s = "class" then some .CLASS
  else if s = "else" then some .ELSE
  else if s = "false" then some .FALSE
  else if s = "for" then some .FOR
  else if s = "fun" then some .FUN
  else if s = "if" then some .IF
  else if s = "nil" then some .NIL
  else if s = "or" then some .OR
  else if s = "print" then some .PRINT
  else if s = "return" then some .RETURN
  else if s = "super" then some .SUPER
  else if s = "this" then some .THIS
  else if s = "true" then some .TRUE
  else if s = "var" then some .VAR
  else if s = "while" then some .WHILE
  else none

def isAtEnd (st : SState) : Bool := st.current ≥ st.source.length

/-- `main.rs` `error` → `report(line, "", message)`: records the error and
sets the `HAD_ERROR` flag. -/
def reportError (st : SState) (line : Nat) (message : String) : SState :=
  { st with errors := st.errors ++ [(line, message)], hadError := true }

/-- `Scanner::advance`.  The Rust indexing `self.source[self.current]`
is only reached with `current` in bounds (guarded by `is_at_end` at every
call site); out-of-bounds reads are defaulted to the NUL character. -/
def advance (st : SState) : Char × SState :=
  ((st.source.get? st.current).getD '\x00', { st with current := st.current + 1 })

def matchC (st : SState) (expected : Char) : Bool × SState :=
  if isAtEnd st then (false, st)
  else if (st.source.get? st.current).getD '\x00' ≠ expected then (false, st)
  else (true, { st with current := st.current + 1 })

def peek (st : SState) : Char :=
  if isAtEnd st then '\x00' else (st.source.get? st.current).getD '\x00'

def peekNext (st : SState) : Char :=
  if st.current + 1 ≥ st.source.length then '\x00'
  else (st.source.get? (st.current + 1)).getD '\x00'

/-- `c >= 'a' && c <= 'z' || c >= 'A' && c <= 'Z' || c == '_'`
(char-code comparison, as Rust compares `char`s). -/
def isAlpha (c : Char) : Bool :=
  (97 ≤ c.toNat && c.toNat ≤ 122) || (65 ≤ c.toNat && c.toNat ≤ 90) || c = '_'

def isDigit (c : Char) : Bool := 48 ≤ c.toNat && c.toNat ≤ 57

def isAlphaNumeric (c : Char) : Bool := isAlpha c || isDigit c

/-- The lexeme `self.source[self.start..self.current]`. -/
def lexemeText (st : SState) : String :=
  String.mk ((st.source.drop st.start).take (st.current - st.start))

/-- `Scanner::add_token`: pushes `Token::new(r#type, text, literal, self.line)`
— four arguments, so the emitted record has no column. -/
def addToken (st : SState) (type : TokenType) (literal : Option LiteralValue) : SState :=
  { st with tokens := st.tokens ++ [⟨type, lexemeText st, literal, st.line⟩] }

/-- Decimal numeral → rational, modelling `str::parse::<f64>` on the
scanner-shaped numerals `[0-9]+(.[0-9]+)?` (f64 rounding carries no
claim-relevant behaviour and is not modelled). -/
def parseDecimal (cs : List Char) : ℚ :=
  let intPart := cs.takeWhile (fun c => c ≠ '.')
  let fracPart := (cs.dropWhile (fun c => c ≠ '.')).drop 1
  let digitsVal : List Char → Nat := fun l => l.foldl (fun a c => a * 10 + (c.toNat - 48)) 0
  (digitsVal intPart : ℚ) + (digitsVal fracPart : ℚ) / ((10 : ℚ) ^ fracPart.length)

/-- The `while` loop inside `Scanner::string`. -/
def stringLoop : Nat → SState → Option SState
  | 0, _ => none
  | fuel + 1, st =>
    if peek st ≠ '"' && !isAtEnd st then
      let st := if peek st = '\n' then { st with line := st.line + 1 } else st
      stringLoop fuel (advance st).2
    else some st

/-- `Scanner::string` after the opening quote was consumed. -/
def stringTok (fuel : Nat) (st : SState) : Option SState := do
  let st ← stringLoop fuel st
  if isAtEnd st then
    return reportError st st.line "Unterminated string."
  let st := (advance st).2
  let value := String.mk (((st.source.drop (st.start + 1)).take (st.current - 1 - (st.start + 1))))
  return addToken st .STRING (some (.String value))

/-- `while self.is_digit(self.peek()) { self.advance(); }` -/
def digitsLoop : Nat → SState → Option SState
  | 0, _ => none
  | fuel + 1, st =>
    if isDigit (peek st) then digitsLoop fuel (advance st).2 else some st

/-- `Scanner::number`. -/
def numberTok (fuel : Nat) (st : SState) : Option SState := do
  let st ← digitsLoop fuel st
  let st ←
    if peek st = '.' && isDigit (peekNext st) then
      digitsLoop fuel (advance st).2
    else
      some st
  return addToken st .NUMBER (some (.Number (parseDecimal (lexemeText st).data)))

/-- `while self.is_alpha_numeric(self.peek()) { self.advance(); }` -/
def identLoop : Nat → SState → Option SState
  | 0, _ => none
  | fuel + 1, st =>
    if isAlphaNumeric (peek st) then identLoop fuel (advance st).2 else some st

/-- `Scanner::identifier`. -/
def identifierTok (fuel : Nat) (st : SState) : Option SState := do
  let st ← identLoop fuel st
  let text := lexemeText st
  return addToken st ((keywords text).getD .IDENTIFIER) none

/-- The `//` comment loop. -/
def commentLoop : Nat → SState → Option SState
  | 0, _ => none
  | fuel + 1, st =>
    if peek st ≠ '\n' && !isAtEnd st then commentLoop fuel (advance st).2 else some st

/-- `Scanner::scan_token`. -/
def scanToken (fuel : Nat) (st : SState) : Option SState :=
  let (c, st) := advance st
  if c = '(' then some (addToken st .LEFT_PAREN none)
  else if c = ')' then some (addToken st .RIGHT_PAREN none)
  else if c = '{' then some (addToken st .LEFT_BRACE none)
  else if c = '}' then some (addToken st .RIGHT_BRACE none)
  else if c = ',' then some (addToken st .COMMA none)
  else if c = '.' then some (addToken st .DOT none)
  else if c = '-' then some (addToken st .MINUS none)
  else if c = '+' then some (addToken st .PLUS none)
  else if c = ';' then some (addToken st .SEMICOLON none)
  else if c = '*' then some (addToken st .STAR none)
  else if c = '!' then
    let (m, st) := matchC st '='
    some (addToken st (if m then .BANG_EQUAL else .BANG) none)
  else if c = '=' then
    let (m, st) := matchC st '='
    some (addToken st (if m then .EQUAL_EQUAL else .EQUAL) none)
  else if c = '<' then
    let (m, st) := matchC st '='
    some (addToken st (if m then .LESS_EQUAL else .LESS) none)
  else if c = '>' then
    let (m, st) := matchC st '='
    some (addToken st (if m then .GREATER_EQUAL else .GREATER) none)
  else if c = '/' then
    let (m, st) := matchC st '/'
    if m then commentLoop fuel st
    else some (addToken st .SLASH none)
  else if c = ' ' || c = '\r' || c = '\t' then some st
  else if c = '"' then stringTok fuel st
  else if c = '\n' then some { st with line := st.line + 1 }
  else if isDigit c then numberTok fuel st
  else if isAlpha c then identifierTok fuel st
  else some (reportError st st.line ("Unexpected character: " ++ String.mk [c]))

/-- The `while !self.is_at_end()` loop of `Scanner::scan_tokens`. -/
def scanLoop : Nat → SState → Option SState
  | 0, _ => none
  | fuel + 1, st =>
    if !isAtEnd st then do
      let st ← scanToken fuel { st with start := st.current }
      scanLoop fuel st
    else some st

/-- `Scanner::scan_tokens`: loop, then append the EOF token. -/
def scanTokens (fuel : Nat) (source : String) : Option SState := do
  let st ← scanLoop fuel
    { source := source.data, tokens := [], start := 0, current := 0,
      line := 1, errors := [], hadError := false }
  return { st with tokens := st.tokens ++ [⟨.EOF, "", none, st.line⟩] }

end Scanner

/-! ## Parser (`parser.rs`)

`struct Parser { tokens, current }` plus the `main.rs` error sink.
Outcomes: `ok` (Rust `Ok`), `err` (Rust `Err(ParseError)` — the struct
carries no data), `panic` (out-of-bounds `unwrap` in `peek`/`previous`).
The outer `Option` is fuel exhaustion. -/

namespace Parser

structure PState where
  tokens : List Token
  current : Nat
  errors : List (Token × String)
  hadError : Bool
  deriving Repr

inductive POut (α : Type) where
  | ok (a : α)
  | err
  | panic

/-- Parser computation: state transformer with parse-error and panic
outcomes, `none` = out of fuel. -/
def PM (α : Type) : Type := PState → Option (POut α × PState)

instance : Monad PM where
  pure a := fun st => some (.ok a, st)
  bind x f := fun st =>
    match x st with
    | none => none
    | some (.ok a, st') => f a st'
    | some (.err, st') => some (.err, st')
    | some (.panic, st') => some (.panic, st')

def getPSt : PM PState := fun st => some (.ok st, st)

def modifyPSt (f : PState → PState) : PM Unit := fun st => some (.ok (), f st)

/-- Rust `return Err(ParseError)`. -/
def perr : PM α := fun st => some (.err, st)

/-- A Rust panic (`unwrap` failure). -/
def ppanic : PM α := fun st => some (.panic, st)

/-- Catch a `ParseError`, like matching on `Result` (`is_ok` / `.ok()`). -/
def tryPM (x : PM α) : PM (Option α) := fun st =>
  match x st with
  | none => none
  | some (.ok a, st') => some (.ok (some a), st')
  | some (.err, st') => some (.ok none, st')
  | some (.panic, st') => some (.panic, st')

/-- `Parser::peek`: `self.tokens.get(self.current).unwrap()`. -/
def peek : PM Token := do
  let st ← getPSt
  match st.tokens.get? st.current with
  | some t => pure t
  | none => ppanic

/-- `Parser::previous`: `self.tokens.get(self.current - 1).unwrap()`
(panics when `current = 0`, as the usize subtraction would). -/
def previous : PM Token := do
  let st ← getPSt
  if st.current = 0 then ppanic
  else
    match st.tokens.get? (st.current - 1) with
    | some t => pure t
    | none => ppanic

def isAtEnd : PM Bool := do
  let t ← peek
  pure (t.type == .EOF)

def advance : PM Token := do
  if !(← isAtEnd) then
    modifyPSt (fun st => { st with current := st.current + 1 })
  previous

def check (type : TokenType) : PM Bool := do
  if ← isAtEnd then pure false
  else do
    let t ← peek
    pure (t.type == type)

/-- `Parser::match` (`r#match`). -/
def matchT : List TokenType → PM Bool
  | [] => pure false
  | t :: ts => do
    if ← check t then
      let _ ← advance
      pure true
    else matchT ts

/-- `Parser::error` → `error_token` (`main.rs`): records the error and
sets `HAD_ERROR`; the `ParseError` value itself is just a signal. -/
def errorP (token : Token) (message : String) : PM Unit :=
  modifyPSt (fun st =>
    { st with errors := st.errors ++ [(token, message)], hadError := true })

def consume (type : TokenType) (message : String) : PM Token := do
  if ← check type then advance
  else do
    let t ← peek
    errorP t message
    perr

/-- The loop of `Parser::synchronize` after its initial `advance`. -/
def syncLoop : Nat → PM Unit
  | 0 => fun _ => none
  | fuel + 1 => do
    if !(← isAtEnd) then
      let prev ← previous
      if prev.type == .SEMICOLON then pure ()
      else
        let t ← peek
        match t.type with
        | .CLASS | .FUN | .VAR | .FOR | .IF | .WHILE | .PRINT | .RETURN => pure ()
        | _ => do
          let _ ← advance
          syncLoop fuel
    else pure ()

def synchronize (fuel : Nat) : PM Unit := do
  let _ ← advance
  syncLoop fuel

mutual

def declaration : Nat → PM Stmt
  | 0 => fun _ => none
  | fuel + 1 => do
    let isClass ← matchT [.CLASS]
    if isClass then classDeclaration fuel
    else do
      let isFun ← matchT [.FUN]
      if isFun then do
        let f ← function fuel "function"
        pure (Stmt.Function f)
      else do
        let isVar ← matchT [.VAR]
        if isVar then varDeclaration fuel
        else statement fuel

/-- `Parser::class_declaration`.  Note: this parser accepts no superclass
clause, and it builds the class with `Class::new(name, methods)` — two
arguments, though `stmt.rs`'s `Class::new` takes `(name, superclass,
methods)`.  The only superclass value this call could supply is `None`. -/
def classDeclaration : Nat → PM Stmt
  | 0 => fun _ => none
  | fuel + 1 => do
    let name ← consume .IDENTIFIER "Expect class name."
    let _ ← consume .LEFT_BRACE "Expect \x27\x7b\x27 before class body."
    let methods ← classBody fuel []
    let _ ← consume .RIGHT_BRACE "Expect \x27\x7d\x27 after class body."
    pure (Stmt.Class name none methods)

/-- The method loop inside `class_declaration`. -/
def classBody : Nat → List FunctionDecl → PM (List FunctionDecl)
  | 0, _ => fun _ => none
  | fuel + 1, acc => do
    if !(← check .RIGHT_BRACE) && !(← isAtEnd) then do
      let m ← function fuel "method"
      classBody fuel (acc ++ [m])
    else pure acc

def varDeclaration : Nat → PM Stmt
  | 0 => fun _ => none
  | fuel + 1 => do
    let name ← consume .IDENTIFIER "Expect variable name."
    let initializer ←
      if ← matchT [.EQUAL] then do
        let e ← expression fuel
        pure (some e)
      else pure none
    let _ ← consume .SEMICOLON "Expect \x27;\x27 after variable declaration."
    pure (Stmt.Var name initializer)

def statement : Nat → PM Stmt
  | 0 => fun _ => none
  | fuel + 1 => do
    let isFor ← matchT [.FOR]
    if isFor then forStatement fuel
    else do
      let isIf ← matchT [.IF]
      if isIf then ifStatement fuel
      else do
        let isPrint ← matchT [.PRINT]
        if isPrint then printStatement fuel
        else do
          let isReturn ← matchT [.RETURN]
          if isReturn then returnStatement fuel
          else do
            let isWhile ← matchT [.WHILE]
            if isWhile then whileStatement fuel
            else do
              let isBrace ← matchT [.LEFT_BRACE]
              if isBrace then do
                let stmts ← blockStmts fuel []
                pure (Stmt.Block stmts)
              else do
                let e ← expressionStatement fuel
                pure (Stmt.Expression e)

/-- `Parser::for_statement`: parse-time desugaring into while-blocks. -/
def forStatement : Nat → PM Stmt
  | 0 => fun _ => none
  | fuel + 1 => do
    let _ ← consume .LEFT_PAREN "Expect \x27(\x27 after \x27for\x27."
    let initializer ←
      (do
        let isSemi ← matchT [.SEMICOLON]
        if isSemi then pure none
        else do
          let isVar ← matchT [.VAR]
          if isVar then do
            let v ← varDeclaration fuel
            pure (some v)
          else do
            let e ← expressionStatement fuel
            pure (some (Stmt.Expression e)))
    let condition ←
      if !(← check .SEMICOLON) then do
        let e ← expression fuel
        pure (some e)
      else pure none
    let _ ← consume .SEMICOLON "Expect \x27;\x27 after loop condition."
    let increment ←
      if !(← check .RIGHT_PAREN) then do
        let e ← expression fuel
        pure (some e)
      else pure none
    let _ ← consume .RIGHT_PAREN "Expect \x27)\x27 after for clauses."
    let body ← statement fuel
    let body :=
      match increment with
      | some inc => Stmt.Block [body, Stmt.Expression inc]
      | none => body
    let whileStmt :=
      Stmt.While (condition.getD (Expr.Literal (some (.Boolean true)))) body
    pure <|
      match initializer with
      | some ini => Stmt.Block [ini, whileStmt]
      | none => whileStmt

def ifStatement : Nat → PM Stmt
  | 0 => fun _ => none
  | fuel + 1 => do
    let _ ← consume .LEFT_PAREN "Expect \x27(\x27 after \x27if\x27."
    let condition ← expression fuel
    let _ ← consume .RIGHT_PAREN "Expect \x27)\x27 after if condition."
    let thenBranch ← statement fuel
    let elseBranch ←
      if ← matchT [.ELSE] then do
        let s ← statement fuel
        pure (some s)
      else pure none
    pure (Stmt.If condition thenBranch elseBranch)

def printStatement : Nat → PM Stmt
  | 0 => fun _ => none
  | fuel + 1 => do
    let value ← expression fuel
    let _ ← consume .SEMICOLON "Expect \x27;\x27 after value."
    pure (Stmt.Print value)

def returnStatement : Nat → PM Stmt
  | 0 => fun _ => none
  | fuel + 1 => do
    let keyword ← previous
    let value ←
      if !(← check .SEMICOLON) then do
        let e ← expression fuel
        pure (some e)
      else pure none
    let _ ← consume .SEMICOLON "Expect \x27;\x27 after return value."
    pure (Stmt.Return keyword value)

def whileStatement : Nat → PM Stmt
  | 0 => fun _ => none
  | fuel + 1 => do
    let _ ← consume .LEFT_PAREN "Expect \x27(\x27 after \x27while\x27."
    let condition ← expression fuel
    let _ ← consume .RIGHT_PAREN "Expect \x27)\x27 after condition."
    let body ← statement fuel
    pure (Stmt.While condition body)

/-- `Parser::block` (the declaration loop plus closing brace). -/
def blockStmts : Nat → List Stmt → PM (List Stmt)
  | 0, _ => fun _ => none
  | fuel + 1, acc => do
    if !(← check .RIGHT_BRACE) && !(← isAtEnd) then do
      let s ← declaration fuel
      blockStmts fuel (acc ++ [s])
    else do
      let _ ← consume .RIGHT_BRACE "Expect \x27\x7d\x27 after block."
      pure acc

def expressionStatement : Nat → PM Expr
  | 0 => fun _ => none
  | fuel + 1 => do
    let e ← expression fuel
    let _ ← consume .SEMICOLON "Expect \x27;\x27 after expression."
    pure e

def function : Nat → String → PM FunctionDecl
  | 0, _ => fun _ => none
  | fuel + 1, kind => do
    let name ← consume .IDENTIFIER ("Expect " ++ kind ++ " name.")
    let _ ← consume .LEFT_PAREN ("Expect \x27(\x27 after " ++ kind ++ " name.")
    let parameters ←
      if !(← check .RIGHT_PAREN) then paramsLoop fuel []
      else pure []
    let _ ← consume .RIGHT_PAREN "Expect \x27)\x27 after parameters."
    let _ ← consume .LEFT_BRACE ("Expect \x27\x7b\x27 before " ++ kind ++ " body.")
    let body ← blockStmts fuel []
    pure (FunctionDecl.mk name parameters body)

/-- The parameter loop inside `Parser::function`; the 256th parameter
reports an error but is still consumed. -/
def paramsLoop : Nat → List Token → PM (List Token)
  | 0, _ => fun _ => none
  | fuel + 1, acc => do
    if acc.length ≥ 255 then do
      let t ← peek
      errorP t "Can\x27t have more than 255 parameters."
    let p ← consume .IDENTIFIER "Expect parameter name."
    if ← matchT [.COMMA] then paramsLoop fuel (acc ++ [p])
    else pure (acc ++ [p])

def expression : Nat → PM Expr
  | 0 => fun _ => none
  | fuel + 1 => assignment fuel

def assignment : Nat → PM Expr
  | 0 => fun _ => none
  | fuel + 1 => do
    let expr ← orE fuel
    if ← matchT [.EQUAL] then do
      let equals ← previous
      let value ← assignment fuel
      match expr with
      | .Variable name => pure (Expr.Assign name value)
      | .Get object name => pure (Expr.Set object name value)
      | _ => do
        errorP equals "Invalid assignment target."
        pure expr
    else pure expr

def orE : Nat → PM Expr
  | 0 => fun _ => none
  | fuel + 1 => do
    let expr ← andE fuel
    orLoop fuel expr

def orLoop : Nat → Expr → PM Expr
  | 0, _ => fun _ => none
  | fuel + 1, expr => do
    if ← matchT [.OR] then do
      let operator ← previous
      let right ← andE fuel
      orLoop fuel (Expr.Logical expr operator right)
    else pure expr

def andE : Nat → PM Expr
  | 0 => fun _ => none
  | fuel + 1 => do
    let expr ← equality fuel
    andLoop fuel expr

def andLoop : Nat → Expr → PM Expr
  | 0, _ => fun _ => none
  | fuel + 1, expr => do
    if ← matchT [.AND] then do
      let operator ← previous
      let right ← equality fuel
      andLoop fuel (Expr.Logical expr operator right)
    else pure expr

def equality : Nat → PM Expr
  | 0 => fun _ => none
  | fuel + 1 => do
    let expr ← comparison fuel
    equalityLoop fuel expr

def equalityLoop : Nat → Expr → PM Expr
  | 0, _ => fun _ => none
  | fuel + 1, expr => do
    if ← matchT [.BANG_EQUAL, .EQUAL_EQUAL] then do
      let operator ← previous
      let right ← comparison fuel
      equalityLoop fuel (Expr.Binary expr operator right)
    else pure expr

def comparison : Nat → PM Expr
  | 0 => fun _ => none
  | fuel + 1 => do
    let expr ← term fuel
    comparisonLoop fuel expr

def comparisonLoop : Nat → Expr → PM Expr
  | 0, _ => fun _ => none
  | fuel + 1, expr => do
    if ← matchT [.GREATER, .GREATER_EQUAL, .LESS, .LESS_EQUAL] then do
      let operator ← previous
      let right ← term fuel
      comparisonLoop fuel (Expr.Binary expr operator right)
    else pure expr

def term : Nat → PM Expr
  | 0 => fun _ => none
  | fuel + 1 => do
    let expr ← factor fuel
    termLoop fuel expr

def termLoop : Nat → Expr → PM Expr
  | 0, _ => fun _ => none
  | fuel + 1, expr => do
    if ← matchT [.MINUS, .PLUS] then do
      let operator ← previous
      let right ← factor fuel
      termLoop fuel (Expr.Binary expr operator right)
    else pure expr

def factor : Nat → PM Expr
  | 0 => fun _ => none
  | fuel + 1 => do
    let expr ← unary fuel
    factorLoop fuel expr

def factorLoop : Nat → Expr → PM Expr
  | 0, _ => fun _ => none
  | fuel + 1, expr => do
    if ← matchT [.SLASH, .STAR] then do
      let operator ← previous
      let right ← unary fuel
      factorLoop fuel (Expr.Binary expr operator right)
    else pure expr

def unary : Nat → PM Expr
  | 0 => fun _ => none
  | fuel + 1 => do
    if ← matchT [.BANG, .MINUS] then do
      let operator ← previous
      let right ← unary fuel
      pure (Expr.Unary operator right)
    else call fuel

def call : Nat → PM Expr
  | 0 => fun _ => none
  | fuel + 1 => do
    let expr ← primary fuel
    callLoop fuel expr

def callLoop : Nat → Expr → PM Expr
  | 0, _ => fun _ => none
  | fuel + 1, expr => do
    let isParen ← matchT [.LEFT_PAREN]
    if isParen then do
      let e ← finishCall fuel expr
      callLoop fuel e
    else do
      let isDot ← matchT [.DOT]
      if isDot then do
        let name ← consume .IDENTIFIER "Expect property name after \x27.\x27."
        callLoop fuel (Expr.Get expr name)
      else pure expr

def finishCall : Nat → Expr → PM Expr
  | 0, _ => fun _ => none
  | fuel + 1, callee => do
    let arguments ←
      if !(← check .RIGHT_PAREN) then argsLoop fuel []
      else pure []
    let paren ← consume .RIGHT_PAREN "Expect \x27)\x27 after arguments."
    pure (Expr.Call callee paren arguments)

/-- The argument loop inside `finish_call`; the 256th argument reports
an error but is still consumed. -/
def argsLoop : Nat → List Expr → PM (List Expr)
  | 0, _ => fun _ => none
  | fuel + 1, acc => do
    if acc.length ≥ 255 then do
      let t ← peek
      errorP t "Can\x27t have more than 255 arguments."
    let e ← expression fuel
    if ← matchT [.COMMA] then argsLoop fuel (acc ++ [e])
    else pure (acc ++ [e])

/-- `Parser::primary`.  There is no `super` case: a SUPER token falls
through to the final `Err(error(peek, "Expect expression."))`. -/
def primary : Nat → PM Expr
  | 0 => fun _ => none
  | fuel + 1 => do
    let isFalse ← matchT [.FALSE]
    if isFalse then pure (Expr.Literal (some (.Boolean false)))
    else do
      let isTrue ← matchT [.TRUE]
      if isTrue then pure (Expr.Literal (some (.Boolean true)))
      else do
        let isNil ← matchT [.NIL]
        if isNil then pure (Expr.Literal none)
        else do
          let isLit ← matchT [.NUMBER, .STRING]
          if isLit then do
            let t ← previous
            pure (Expr.Literal t.literal)
          else do
            let isThis ← matchT [.THIS]
            if isThis then do
              let t ← previous
              pure (Expr.This t)
            else do
              let isIdent ← matchT [.IDENTIFIER]
              if isIdent then do
                let t ← previous
                pure (Expr.Variable t)
              else do
                let isParen ← matchT [.LEFT_PAREN]
                if isParen then do
                  let expr ← expression fuel
                  let _ ← consume .RIGHT_PAREN "Expect \x27)\x27 after expressions."
                  pure (Expr.Grouping expr)
                else do
                  let t ← peek
                  errorP t "Expect expression."
                  perr

end

/-- The loop of `Parser::parse`: failed declarations synchronize and are
discarded; successful ones are pushed as `Some`. -/
def parseLoop : Nat → List (Option Stmt) → PM (List (Option Stmt))
  | 0, _ => fun _ => none
  | fuel + 1, acc => do
    if !(← isAtEnd) then do
      match ← tryPM (declaration fuel) with
      | some s => parseLoop fuel (acc ++ [some s])
      | none => do
        synchronize fuel
        parseLoop fuel acc
    else pure acc

/-- `Parser::parse`. -/
def parse (fuel : Nat) : PM (List (Option Stmt)) := parseLoop fuel []

/-- `Parser::parse_expr`: `self.expression().ok()`. -/
def parseExpr (fuel : Nat) : PM (Option Expr) := tryPM (expression fuel)

/-- `Parser::new(tokens)`. -/
def initState (tokens : List Token) : PState :=
  { tokens := tokens, current := 0, errors := [], hadError := false }

end Parser

/-! ### Computable rational arithmetic

The f64 arithmetic of the evaluator is modelled on ℚ.  The standard
`Rat` operations do not reduce definitionally (they are `@[extern]`),
so the evaluator uses the following `mkRat`-based implementations,
proved equal to the standard operations below. -/

def ratAdd (a b : ℚ) : ℚ := mkRat (a.num * b.den + b.num * a.den) (a.den * b.den)

def ratSub (a b : ℚ) : ℚ := mkRat (a.num * b.den - b.num * a.den) (a.den * b.den)

def ratMul (a b : ℚ) : ℚ := mkRat (a.num * b.num) (a.den * b.den)

def ratDiv (a b : ℚ) : ℚ :=
  mkRat (a.num * b.den * (if b.num < 0 then -1 else 1)) (a.den * b.num.natAbs)

def ratNeg (a : ℚ) : ℚ := mkRat (-a.num) a.den

/-! ## Runtime values (`token.rs`, `lox_callables.rs`, `lox_instance.rs`)

`Rc<Environment>` and the `Rc<RefCell<HashMap>>` instance field maps are
modelled as addresses (`Nat`) into explicit heaps carried in the
interpreter state; sharing an `Rc` is sharing an address. -/

/-- `lox_callables.rs` `LoxAnonymous`: a pair of function pointers.  The
pointers themselves are modelled by an identity tag; the only native
ever registered is `clock` (tag 0, arity 0). -/
structure LoxAnonymousF where
  callId : Nat
  arityVal : Nat
  deriving DecidableEq, Repr

/-- `lox_callables.rs` `LoxFunction { declaration, closure, is_initializer }`;
`closure` is an environment-heap address. -/
structure LoxFunction where
  declaration : FunctionDecl
  closure : Nat
  isInitializer : Bool
  deriving Repr

/-- `lox_callables.rs` `LoxClass { name, superclass, methods }`. -/
inductive LoxClass where
  | mk (name : String) (superclass : Option LoxClass) (methods : List (String × LoxFunction))
  deriving Repr

def LoxClass.name : LoxClass → String
  | .mk n _ _ => n

def LoxClass.superclass : LoxClass → Option LoxClass
  | .mk _ s _ => s

def LoxClass.methods : LoxClass → List (String × LoxFunction)
  | .mk _ _ m => m

/-- `lox_instance.rs` `LoxInstance { klass, fields }`; `fields` is a
field-map-heap address (the shared `Rc<RefCell<HashMap>>`). -/
structure LoxInstance where
  klass : LoxClass
  fields : Nat
  deriving Repr

/-- `lox_callables.rs` `enum LoxCallables`. -/
inductive LoxCallables where
  | LoxFunction (f : LoxFunction)
  | LoxAnonymous (f : LoxAnonymousF)
  | LoxClass (c : LoxClass)
  deriving Repr

/-- The runtime side of `token.rs`'s `LiteralValue` (the full enum,
including the callable and instance variants).  A Lox `nil` is an
`Option Value` that is `none`, as in the Rust `Option<LiteralValue>`. -/
inductive Value where
  | String (s : String)
  | Number (n : ℚ)
  | Boolean (b : Bool)
  | LoxCallable (c : LoxCallables)
  | LoxInstance (i : LoxInstance)
  deriving Repr

/-- Inclusion of token/AST literal payloads into runtime values. -/
def LiteralValue.toValue : LiteralValue → Value
  | .String s => .String s
  | .Number n => .Number n
  | .Boolean b => .Boolean b

/-- `LoxClass::find_method`: own method table first, then the superclass
chain. -/
def LoxClass.findMethod : LoxClass → String → Option LoxFunction
  | .mk _ sc methods, name =>
    match methods.lookup name with
    | some m => some m
    | none =>
      match sc with
      | some s => s.findMethod name
      | none => none

/-! ## Environments and interpreter state (`environment.rs`, `interpreter.rs`) -/

/-- A key→value map with `HashMap::insert` semantics (replace the
existing binding, else append). -/
def mapInsert [DecidableEq κ] (m : List (κ × α)) (k : κ) (v : α) : List (κ × α) :=
  if (m.lookup k).isSome then
    m.map (fun p => if p.1 = k then (k, v) else p)
  else m ++ [(k, v)]

/-- `environment.rs` `Environment { enclosing, values }`;
`enclosing` is an environment-heap address. -/
structure EnvData where
  enclosing : Option Nat
  values : List (String × Option Value)
  deriving Repr

/-- `interpreter.rs` `RuntimeExceptions`. -/
inductive Exc where
  | RuntimeError (message : String) (token : Token)
  | Return (value : Option Value)
  deriving Repr

/-- The interpreter state: the two heaps, the fields of
`struct Interpreter` (`globals`, `environment`, `locals`), the stdout
lines written by `print`, and the `main.rs` runtime-error sink.  `now`
is the wall-clock value the `clock` native would read. -/
structure St where
  envs : List EnvData
  fieldMaps : List (List (String × Option Value))
  globals : Nat
  environment : Nat
  locals : List (Token × Nat)
  output : List String
  runtimeErrors : List (String × Nat)
  hadRuntimeError : Bool
  now : ℚ
  deriving Repr

namespace Interp

inductive ROut (α : Type) where
  | ok (a : α)
  | exc (e : Exc)
  | panic
  deriving Repr

/-- Evaluator computation: state, `RuntimeExceptions` propagation
(Rust `?`), panic, and fuel exhaustion (`none`). -/
def EM (α : Type) : Type := St → Option (ROut α × St)

instance : Monad EM where
  pure a := fun st => some (.ok a, st)
  bind x f := fun st =>
    match x st with
    | none => none
    | some (.ok a, st') => f a st'
    | some (.exc e, st') => some (.exc e, st')
    | some (.panic, st') => some (.panic, st')

def getESt : EM St := fun st => some (.ok st, st)

def modifyESt (f : St → St) : EM Unit := fun st => some (.ok (), f st)

def throwE (e : Exc) : EM α := fun st => some (.exc e, st)

def epanic : EM α := fun st => some (.panic, st)

/-- Reify the outcome of a computation (to translate Rust code that
matches on a `Result` value instead of using `?`). -/
def reify (x : EM α) : EM (ROut α) := fun st =>
  match x st with
  | none => none
  | some (o, st') => some (.ok o, st')

/-- `Environment::new(enclosing)` behind `Rc::new`: allocate a fresh
environment, returning its address. -/
def newEnv (enclosing : Option Nat) : EM Nat := fun st =>
  some (.ok st.envs.length, { st with envs := st.envs ++ [⟨enclosing, []⟩] })

/-- `Environment::define(name, value)`: unconditional insert into the
local map of the environment at address `a`. -/
def defineVar (a : Nat) (name : String) (v : Option Value) : EM Unit := fun st =>
  match st.envs.get? a with
  | some d =>
    some (.ok (), { st with envs := st.envs.set a { d with values := mapInsert d.values name v } })
  | none => some (.panic, st)

/-- `Environment::get(name)`: local lookup, else recurse into the
enclosing chain, else "Undefined variable".  The chain walk is fueled
(a heap built by `newEnv` is acyclic, but the definition must be total). -/
def envGet : Nat → Nat → Token → EM (Option Value)
  | 0, _, _ => fun _ => none
  | fuel + 1, a, name => do
    let st ← getESt
    match st.envs.get? a with
    | none => epanic
    | some d =>
      match d.values.lookup name.lexeme with
      | some v => pure v
      | none =>
        match d.enclosing with
        | some e => envGet fuel e name
        | none =>
          throwE (.RuntimeError ("Undefined variable \x27" ++ name.lexeme ++ "\x27.") name)

/-- `Environment::assign(name, value)`: local write if the name is
present, else recurse; never creates a binding. -/
def envAssign : Nat → Nat → Token → Option Value → EM Unit
  | 0, _, _, _ => fun _ => none
  | fuel + 1, a, name, v => do
    let st ← getESt
    match st.envs.get? a with
    | none => epanic
    | some d =>
      if (d.values.lookup name.lexeme).isSome then
        modifyESt (fun st' =>
          { st' with envs := st'.envs.set a { d with values := mapInsert d.values name.lexeme v } })
      else
        match d.enclosing with
        | some e => envAssign fuel e name v
        | none =>
          throwE (.RuntimeError ("Undefined variable \x27" ++ name.lexeme ++ "\x27.") name)

/-- `Environment::get_at(distance, name)`: walk exactly `distance`
enclosing hops, then read the local map; both the missing-enclosing and
the missing-name `unwrap`s panic.  (The `environment.rs` signature says
`name: &Token`, but every caller passes the lexeme `&String`; the lookup
is by lexeme either way.) -/
def getAt : Nat → Nat → String → EM (Option Value)
  | 0, a, name => do
    let st ← getESt
    match st.envs.get? a with
    | none => epanic
    | some envd =>
      match envd.values.lookup name with
      | some v => pure v
      | none => epanic
  | d + 1, a, name => do
    let st ← getESt
    match st.envs.get? a with
    | none => epanic
    | some envd =>
      match envd.enclosing with
      | some e => getAt d e name
      | none => epanic

/-- `Environment::assign_at(distance, name, value)`: walk exactly
`distance` hops, then insert unconditionally. -/
def assignAt : Nat → Nat → Token → Option Value → EM Unit
  | 0, a, name, v => do
    let st ← getESt
    match st.envs.get? a with
    | none => epanic
    | some envd =>
      modifyESt (fun st' =>
        { st' with envs := st'.envs.set a { envd with values := mapInsert envd.values name.lexeme v } })
  | d + 1, a, name, v => do
    let st ← getESt
    match st.envs.get? a with
    | none => epanic
    | some envd =>
      match envd.enclosing with
      | some e => assignAt d e name v
      | none => epanic

/-- `LoxFunction::bind(instance)`: fresh environment over the closure,
defining `this`. -/
def bindFunction (m : LoxFunction) (inst : LoxInstance) : EM LoxFunction := do
  let a ← newEnv (some m.closure)
  defineVar a "this" (some (.LoxInstance inst))
  pure { declaration := m.declaration, closure := a, isInitializer := m.isInitializer }

/-- `LoxInstance::set`: write through the shared field map. -/
def instanceSet (inst : LoxInstance) (name : Token) (v : Option Value) : EM Unit := fun st =>
  match st.fieldMaps.get? inst.fields with
  | some m =>
    some (.ok (), { st with fieldMaps := st.fieldMaps.set inst.fields (mapInsert m name.lexeme v) })
  | none => some (.panic, st)

/-- `LoxInstance::get`: field first, then a method bound to the
instance, else "Undefined property". -/
def instanceGet (inst : LoxInstance) (name : Token) : EM (Option Value) := do
  let st ← getESt
  match st.fieldMaps.get? inst.fields with
  | none => epanic
  | some m =>
    match m.lookup name.lexeme with
    | some v => pure v
    | none =>
      match inst.klass.findMethod name.lexeme with
      | some method => do
        let bound ← bindFunction method inst
        pure (some (.LoxCallable (.LoxFunction bound)))
      | none =>
        throwE (.RuntimeError ("Undefined property \x27" ++ name.lexeme ++ "\x27.") name)

/-! ### Value equality

`Interpreter::is_equal(a, b)` is `a == b` on `Option<LiteralValue>` with
the *derived* `PartialEq` of every participating type; `Rc<T>` equality
compares the pointed-to contents, so instances compare by class and
field-map contents, functions by declaration, `is_initializer` and
(recursively) closure-environment contents.  The recursion through
shared environments is unbounded in Rust (it can even diverge on cyclic
closures), so it is fueled here; `none` is that divergence/fuel-out. -/

def allOptB (f : α → Option Bool) : List α → Option Bool
  | [] => some true
  | x :: xs =>
    match f x with
    | none => none
    | some b => if b then allOptB f xs else some false

mutual

def valueOptEq : Nat → St → Option Value → Option Value → Option Bool
  | 0, _, _, _ => none
  | gas + 1, st, a, b =>
    match a, b with
    | none, none => some true
    | some x, some y => valueEq gas st x y
    | _, _ => some false

def valueEq : Nat → St → Value → Value → Option Bool
  | 0, _, _, _ => none
  | gas + 1, st, x, y =>
    match x, y with
    | .String s, .String s' => some (s == s')
    | .Number n, .Number n' => some (n == n')
    | .Boolean b, .Boolean b' => some (b == b')
    | .LoxCallable c, .LoxCallable c' => callablesEq gas st c c'
    | .LoxInstance i, .LoxInstance i' => instanceEq gas st i i'
    | _, _ => some false

def callablesEq : Nat → St → LoxCallables → LoxCallables → Option Bool
  | 0, _, _, _ => none
  | gas + 1, st, c, c' =>
    match c, c' with
    | .LoxFunction f, .LoxFunction f' => functionEq gas st f f'
    | .LoxAnonymous a, .LoxAnonymous a' => some (a == a')
    | .LoxClass k, .LoxClass k' => classEq gas st k k'
    | _, _ => some false

def functionEq : Nat → St → LoxFunction → LoxFunction → Option Bool
  | 0, _, _, _ => none
  | gas + 1, st, f, f' =>
    if !Stmt.beqF f.declaration f'.declaration then some false
    else if f.isInitializer != f'.isInitializer then some false
    else envEq gas st f.closure f'.closure

def classEq : Nat → St → LoxClass → LoxClass → Option Bool
  | 0, _, _, _ => none
  | gas + 1, st, k, k' =>
    if k.name ≠ k'.name then some false
    else
      match
        (match k.superclass, k'.superclass with
         | none, none => some true
         | some s, some s' => classEq gas st s s'
         | _, _ => some false) with
      | none => none
      | some false => some false
      | some true => fnMapEq gas st k.methods k'.methods

def fnMapEq : Nat → St → List (String × LoxFunction) → List (String × LoxFunction) → Option Bool
  | 0, _, _, _ => none
  | gas + 1, st, m, m' =>
    match
      allOptB
        (fun p =>
          match m'.lookup p.1 with
          | some v' => functionEq gas st p.2 v'
          | none => some false) m with
    | none => none
    | some false => some false
    | some true => some (m'.all (fun p => (m.lookup p.1).isSome))

def instanceEq : Nat → St → LoxInstance → LoxInstance → Option Bool
  | 0, _, _, _ => none
  | gas + 1, st, i, i' =>
    match classEq gas st i.klass i'.klass with
    | none => none
    | some false => some false
    | some true =>
      match st.fieldMaps.get? i.fields, st.fieldMaps.get? i'.fields with
      | some m, some m' => valueMapEq gas st m m'
      | _, _ => none

def valueMapEq : Nat → St → List (String × Option Value) → List (String × Option Value) → Option Bool
  | 0, _, _, _ => none
  | gas + 1, st, m, m' =>
    match
      allOptB
        (fun p =>
          match m'.lookup p.1 with
          | some v' => valueOptEq gas st p.2 v'
          | none => some false) m with
    | none => none
    | some false => some false
    | some true => some (m'.all (fun p => (m.lookup p.1).isSome))

def envEq : Nat → St → Nat → Nat → Option Bool
  | 0, _, _, _ => none
  | gas + 1, st, a, a' =>
    match st.envs.get? a, st.envs.get? a' with
    | some d, some d' =>
      match
        (match d.enclosing, d'.enclosing with
         | none, none => some true
         | some e, some e' => envEq gas st e e'
         | _, _ => some false) with
      | none => none
      | some false => some false
      | some true => valueMapEq gas st d.values d'.values
    | _, _ => none

end

/-- `Interpreter::is_equal`: `a == b`. -/
def isEqual (gas : Nat) (st : St) (a b : Option Value) : Option Bool :=
  valueOptEq gas st a b

/-! ### Truthiness, casts, stringify -/

/-- `Interpreter::is_truthy`. -/
def isTruthy : Option Value → Bool
  | none => false
  | some (.Boolean b) => b
  | some _ => true

/-- `interpreter.rs` free function `number_cast`. -/
def numberCast : Option Value → Option ℚ
  | some (.Number v) => some v
  | _ => none

/-- `interpreter.rs` free function `string_cast`. -/
def stringCast : Option Value → Option String
  | some (.String v) => some v
  | _ => none

/-- `str::trim_end_matches(".0")`: repeatedly strip the suffix `.0`. -/
def trimDotZeroAux : Nat → List Char → List Char
  | 0, l => l
  | n + 1, l =>
    match l with
    | '0' :: '.' :: rest => trimDotZeroAux n rest
    | _ => l

def trimDotZero (s : String) : String :=
  String.mk (trimDotZeroAux s.length s.data.reverse).reverse

/-- Rust `{:?}` on f64, in the rational model: an integral value prints
with a trailing `.0`.  (Only the integral case carries claim-relevant
behaviour; non-integral values fall back to the rational printer.) -/
def numberDebugString (q : ℚ) : String :=
  if q.den = 1 then toString q.num ++ ".0" else toString q

def LoxCallables.displayString : LoxCallables → String
  | .LoxAnonymous _ => "<anonymous function>"
  | .LoxFunction f => "<fn " ++ f.declaration.name.lexeme ++ ">"
  | .LoxClass c => c.name

/-- `Display` for `LiteralValue`. -/
def Value.displayString : Value → String
  | .String s => s
  | .Number q => numberDebugString q
  | .Boolean b => if b then "true" else "false"
  | .LoxCallable c => LoxCallables.displayString c
  | .LoxInstance i => i.klass.name ++ " instance"

/-- `Interpreter::stringify`. -/
def stringify : Option Value → String
  | none => "nil"
  | some (.Number q) => trimDotZero (numberDebugString q)
  | some v => Value.displayString v

/-! ### The evaluator (`interpreter.rs`) -/

def efuelout : EM α := fun _ => none

/-- `Interpreter::check_number_operand`. -/
def checkNumberOperand (operator : Token) (operand : Option Value) : EM ℚ :=
  match operand with
  | some (.Number v) => pure v
  | _ => throwE (.RuntimeError "Operand must be a number." operator)

/-- `Interpreter::check_number_operands`. -/
def checkNumberOperands (operator : Token) (l r : Option Value) : EM (ℚ × ℚ) :=
  match numberCast l, numberCast r with
  | some a, some b => pure (a, b)
  | _, _ => throwE (.RuntimeError "Operands must be numbers." operator)

/-- The operator dispatch of `Interpreter::visit_binary`, applied to the
two already-evaluated operands. -/
def binaryOp (fuel : Nat) (operator : Token) (l r : Option Value) : EM (Option Value) :=
  match operator.type with
  | .MINUS => do
    let (a, b) ← checkNumberOperands operator l r
    pure (some (.Number (ratSub a b)))
  | .SLASH => do
    let (a, b) ← checkNumberOperands operator l r
    pure (some (.Number (ratDiv a b)))
  | .STAR => do
    let (a, b) ← checkNumberOperands operator l r
    pure (some (.Number (ratMul a b)))
  | .PLUS =>
    match numberCast l, numberCast r with
    | some a, some b => pure (some (.Number (ratAdd a b)))
    | _, _ =>
      match stringCast l, stringCast r with
      | some a, some b => pure (some (.String (a ++ b)))
      | _, _ =>
        throwE (.RuntimeError "Operands must be two numbers or two strings." operator)
  | .GREATER => do
    let (a, b) ← checkNumberOperands operator l r
    pure (some (.Boolean (a > b)))
  | .GREATER_EQUAL => do
    let (a, b) ← checkNumberOperands operator l r
    pure (some (.Boolean (a ≥ b)))
  | .LESS => do
    let (a, b) ← checkNumberOperands operator l r
    pure (some (.Boolean (a < b)))
  | .LESS_EQUAL => do
    let (a, b) ← checkNumberOperands operator l r
    pure (some (.Boolean (a ≤ b)))
  | .BANG_EQUAL => do
    let st ← getESt
    match isEqual fuel st l r with
    | none => efuelout
    | some b => pure (some (.Boolean (!b)))
  | .EQUAL_EQUAL => do
    let st ← getESt
    match isEqual fuel st l r with
    | none => efuelout
    | some b => pure (some (.Boolean b))
  | _ => throwE (.RuntimeError "Invalid operator when evaluating binary!" operator)

/-- `LoxCallables::arity` (and `LoxClass::arity`, `LoxFunction::arity`). -/
def LoxCallables.arity : LoxCallables → Nat
  | .LoxFunction f => f.declaration.params.length
  | .LoxAnonymous a => a.arityVal
  | .LoxClass c =>
    match c.findMethod "init" with
    | none => 0
    | some i => i.declaration.params.length

/-- `Interpreter::lookup_variable`. -/
def lookupVariable (fuel : Nat) (name : Token) : EM (Option Value) := do
  let st ← getESt
  match st.locals.lookup name with
  | some d => getAt d st.environment name.lexeme
  | none => envGet fuel st.globals name

/-- The parameter-binding loop of `LoxFunction::call`
(`arguments.get(i).unwrap()` panics if an argument is missing). -/
def defineParams (a : Nat) : List Token → List (Option Value) → EM Unit
  | [], _ => pure ()
  | p :: ps, v :: vs => do
    defineVar a p.lexeme v
    defineParams a ps vs
  | _ :: _, [] => epanic

/-- `LoxInstance::new`: allocate a fresh shared field map. -/
def newFieldMap : EM Nat := fun st =>
  some (.ok st.fieldMaps.length, { st with fieldMaps := st.fieldMaps ++ [[]] })

/-- The native `clock` (the only `LoxAnonymous` ever constructed):
returns the wall clock as a number. -/
def nativeCall (a : LoxAnonymousF) (_args : List (Option Value)) : EM (Option Value) := do
  let st ← getESt
  match a.callId with
  | 0 => pure (some (.Number st.now))
  | _ => epanic

/-- The method-table fold of `Interpreter::visit_class`. -/
def buildMethods (env : Nat) (methods : List FunctionDecl) : List (String × LoxFunction) :=
  methods.foldl
    (fun acc m => mapInsert acc m.name.lexeme ⟨m, env, m.name.lexeme == "init"⟩) []

mutual

/-- `Interpreter::evaluate` = `expr.accept(self)`: the `expr::Visitor`
impl of `interpreter.rs`.  (`expr.rs` has no `Super` variant — the
`visit_super` method in `interpreter.rs` refers to a type `expr::Super`
that does not exist — so there is no super case here.) -/
def evaluate : Nat → Expr → EM (Option Value)
  | 0, _ => fun _ => none
  | fuel + 1, e =>
    match e with
    | .Assign name value => do
      let v ← evaluate fuel value
      let st ← getESt
      match st.locals.lookup name with
      | some d => do
        assignAt d st.environment name v
        pure v
      | none => do
        envAssign fuel st.globals name v
        pure v
    | .Binary left operator right => do
      let l ← evaluate fuel left
      let r ← evaluate fuel right
      binaryOp fuel operator l r
    | .Call callee paren arguments => do
      let c ← evaluate fuel callee
      let args ← evalArgs fuel arguments
      let f ←
        match c with
        | some (.LoxCallable callable) => pure callable
        | _ => throwE (.RuntimeError "Can only call functions and classes." paren)
      if args.length ≠ LoxCallables.arity f then
        throwE (.RuntimeError
          ("Expected " ++ toString (LoxCallables.arity f) ++ " arguments but got " ++
            toString args.length ++ ".") paren)
      else do
        let result ← reify (callCallable fuel f args)
        match result with
        | .exc (.Return r) => pure r
        | .ok v => pure v
        | .exc e => throwE e
        | .panic => epanic
    | .Get object name => do
      let o ← evaluate fuel object
      match o with
      | some (.LoxInstance inst) => instanceGet inst name
      | _ => throwE (.RuntimeError "Only instances have properties." name)
    | .Grouping inner => evaluate fuel inner
    | .Literal v => pure (v.map LiteralValue.toValue)
    | .Logical left operator right => do
      let l ← evaluate fuel left
      let lt := isTruthy l
      match operator.type with
      | .OR => if lt then pure l else evaluate fuel right
      | .AND => if !lt then pure l else evaluate fuel right
      | _ => throwE (.RuntimeError "Invalid operator when evaluating logical!" operator)
    | .Set object name value => do
      let o ← evaluate fuel object
      match o with
      | some (.LoxInstance inst) => do
        let v ← evaluate fuel value
        instanceSet inst name v
        pure v
      | _ => throwE (.RuntimeError "Only instances have fields." name)
    | .This keyword => lookupVariable fuel keyword
    | .Unary operator right => do
      let r ← evaluate fuel right
      match operator.type with
      | .MINUS => do
        let n ← checkNumberOperand operator r
        pure (some (.Number (ratNeg n)))
      | .BANG => pure (some (.Boolean (!isTruthy r)))
      | _ => throwE (.RuntimeError "Invalid operator when evaluating unary!" operator)
    | .Variable name => lookupVariable fuel name

def evalArgs : Nat → List Expr → EM (List (Option Value))
  | 0, _ => fun _ => none
  | fuel + 1, es =>
    match es with
    | [] => pure []
    | e :: rest => do
      let v ← evaluate fuel e
      let vs ← evalArgs fuel rest
      pure (v :: vs)

/-- `Interpreter::execute` = `stmt.accept(self)`: the `stmt::Visitor`
impl of `interpreter.rs`. -/
def execute : Nat → Stmt → EM Unit
  | 0, _ => fun _ => none
  | fuel + 1, s =>
    match s with
    | .Block statements => do
      let st ← getESt
      let a ← newEnv (some st.environment)
      executeBlock fuel statements a
    | .Class name superclass methods => do
      let superclassVal ←
        match superclass with
        | some scTok => do
          let v ← evaluate fuel (Expr.Variable scTok)
          let sc :=
            match v with
            | some (.LoxCallable (.LoxClass c)) => some c
            | _ => none
          match sc with
          | none => throwE (.RuntimeError "Superclass must be a class." scTok)
          | some c => pure (some c)
        | none => pure none
      let st ← getESt
      defineVar st.environment name.lexeme none
      match superclassVal with
      | some sc => do
        let st₁ ← getESt
        let a ← newEnv (some st₁.environment)
        modifyESt (fun s' => { s' with environment := a })
        defineVar a "super" (some (.LoxCallable (.LoxClass sc)))
      | none => pure ()
      let st₂ ← getESt
      let klass := LoxClass.mk name.lexeme superclassVal (buildMethods st₂.environment methods)
      match superclassVal with
      | some _ => do
        let st₃ ← getESt
        match (st₃.envs.get? st₃.environment).bind (fun d => d.enclosing) with
        | some e => modifyESt (fun s' => { s' with environment := e })
        | none => epanic
      | none => pure ()
      let st₄ ← getESt
      envAssign fuel st₄.environment name (some (.LoxCallable (.LoxClass klass)))
    | .Expression e => do
      let _ ← evaluate fuel e
      pure ()
    | .Function f => do
      let st ← getESt
      defineVar st.environment f.name.lexeme
        (some (.LoxCallable (.LoxFunction ⟨f, st.environment, false⟩)))
    | .If condition thenBranch elseBranch => do
      let cv ← evaluate fuel condition
      if isTruthy cv then execute fuel thenBranch
      else
        match elseBranch with
        | some eb => execute fuel eb
        | none => pure ()
    | .Print e => do
      let v ← evaluate fuel e
      modifyESt (fun s' => { s' with output := s'.output ++ [stringify v] })
    | .Return _keyword value => do
      let v ←
        match value with
        | some e => evaluate fuel e
        | none => pure none
      throwE (.Return v)
    | .Var name initializer => do
      let v ←
        match initializer with
        | some e => evaluate fuel e
        | none => pure none
      let st ← getESt
      defineVar st.environment name.lexeme v
    | .While condition body => do
      let cv ← evaluate fuel condition
      whileLoop fuel condition body cv

def executeStmts : Nat → List Stmt → EM Unit
  | 0, _ => fun _ => none
  | fuel + 1, ss =>
    match ss with
    | [] => pure ()
    | s :: rest => do
      execute fuel s
      executeStmts fuel rest

/-- `Interpreter::execute_block`: save the active environment, run the
statements in the supplied environment (stopping at the first error),
restore the previous environment, and hand the stopping error (if any)
back out. -/
def executeBlock : Nat → List Stmt → Nat → EM Unit
  | 0, _, _ => fun _ => none
  | fuel + 1, statements, environment => fun st =>
    let previous := st.environment
    match executeStmts fuel statements { st with environment := environment } with
    | none => none
    | some (o, st') => some (o, { st' with environment := previous })

/-- The loop of `Interpreter::visit_while`. -/
def whileLoop : Nat → Expr → Stmt → Option Value → EM Unit
  | 0, _, _, _ => fun _ => none
  | fuel + 1, condition, body, cv =>
    if isTruthy cv then do
      execute fuel body
      let cv' ← evaluate fuel condition
      whileLoop fuel condition body cv'
    else pure ()

/-- `LoxCallables::call` dispatch. -/
def callCallable : Nat → LoxCallables → List (Option Value) → EM (Option Value)
  | 0, _, _ => fun _ => none
  | fuel + 1, c, args =>
    match c with
    | .LoxFunction f => callFunction fuel f args
    | .LoxAnonymous a => nativeCall a args
    | .LoxClass k => callClass fuel k args

/-- `LoxFunction::call`. -/
def callFunction : Nat → LoxFunction → List (Option Value) → EM (Option Value)
  | 0, _, _ => fun _ => none
  | fuel + 1, f, args => do
    let a ← newEnv (some f.closure)
    defineParams a f.declaration.params args
    let result ← reify (executeBlock fuel f.declaration.body a)
    match result with
    | .exc (.Return r) =>
      if f.isInitializer then getAt 0 f.closure "this"
      else pure r
    | .ok _ =>
      if f.isInitializer then getAt 0 f.closure "this"
      else pure none
    | .exc e =>
      if f.isInitializer then getAt 0 f.closure "this"
      else throwE e
    | .panic => epanic

/-- `LoxClass::call`. -/
def callClass : Nat → LoxClass → List (Option Value) → EM (Option Value)
  | 0, _, _ => fun _ => none
  | fuel + 1, c, args => do
    let addr ← newFieldMap
    let inst : LoxInstance := ⟨c, addr⟩
    match c.findMethod "init" with
    | some ini => do
      let bound ← bindFunction ini inst
      let _ ← callFunction fuel bound args
      pure (some (.LoxInstance inst))
    | none => pure (some (.LoxInstance inst))

end

/-- `Interpreter::interpret`: execute statements until the first error;
a `RuntimeError` is fed to `main.rs`'s `runtime_error` sink, a stray
`Return` is ignored. -/
def interpret (fuel : Nat) (statements : List Stmt) : St → Option (ROut Unit × St) :=
  fun st =>
    match executeStmts fuel statements st with
    | none => none
    | some (.exc (.RuntimeError m t), st') =>
      some (.ok (), { st' with runtimeErrors := st'.runtimeErrors ++ [(m, t.line)],
                               hadRuntimeError := true })
    | some (.exc (.Return _), st') => some (.ok (), st')
    | some (.ok _, st') => some (.ok (), st')
    | some (.panic, st') => some (.panic, st')

def clockNative : LoxAnonymousF := ⟨0, 0⟩

/-- `Interpreter::new`: the globals environment with `clock` bound,
active environment = globals. -/
def newInterpreter : St :=
  { envs := [⟨none, mapInsert [] "clock" (some (.LoxCallable (.LoxAnonymous clockNative)))⟩],
    fieldMaps := [], globals := 0, environment := 0, locals := [],
    output := [], runtimeErrors := [], hadRuntimeError := false, now := 0 }

/-- `Interpreter::resolve(token, depth)`: side-table insert. -/
def resolveTable (st : St) (t : Token) (d : Nat) : St :=
  { st with locals := mapInsert st.locals t d }

end Interp

/-! ## Resolver (`resolver.rs`)

A pure structural walk over the syntax tree, threading the resolver
state (scope stack, function/class context, the interpreter side table
it writes through `Interpreter::resolve`, and the `main.rs` error sink). -/

namespace Resolver

inductive FunctionType where
  | None | Function | Initializer | Method
  deriving DecidableEq, Repr

inductive ClassType where
  | None | Class | Subclass
  deriving DecidableEq, Repr

/-- Resolver state: `scopes` is the `Vec<HashMap<String, bool>>` (last
element = innermost scope); `locals` is the interpreter's side table. -/
structure RState where
  scopes : List (List (String × Bool))
  currentFunction : FunctionType
  currentClass : ClassType
  locals : List (Token × Nat)
  errors : List (Token × String)
  hadError : Bool
  deriving Repr

/-- `Resolver::new(interpreter)`. -/
def initRState : RState :=
  { scopes := [], currentFunction := .None, currentClass := .None,
    locals := [], errors := [], hadError := false }

/-- `main.rs` `error_token`: record the error, set `HAD_ERROR`. -/
def rerror (s : RState) (t : Token) (message : String) : RState :=
  { s with errors := s.errors ++ [(t, message)], hadError := true }

def beginScope (s : RState) : RState := { s with scopes := s.scopes ++ [[]] }

def endScope (s : RState) : RState := { s with scopes := s.scopes.dropLast }

/-- Replace the innermost scope. -/
def setLast (s : RState) (scope : List (String × Bool)) : RState :=
  { s with scopes := s.scopes.dropLast ++ [scope] }

/-- `Resolver::declare`. -/
def declare (s : RState) (name : Token) : RState :=
  match s.scopes.getLast? with
  | none => s
  | some scope =>
    let s :=
      if (scope.lookup name.lexeme).isSome then
        rerror s name "Already a variable with this name in this scope."
      else s
    setLast s (mapInsert scope name.lexeme false)

/-- `Resolver::define`. -/
def define (s : RState) (name : Token) : RState :=
  match s.scopes.getLast? with
  | none => s
  | some scope => setLast s (mapInsert scope name.lexeme true)

/-- `Resolver::resolve_local`: scan the scope stack innermost-first; on
the first scope containing the lexeme, record
`distance = scopes.len() - 1 - i` (the number of hops from the top) in
the interpreter side table. -/
def resolveLocal (s : RState) (name : Token) : RState :=
  match s.scopes.reverse.findIdx? (fun sc => (sc.lookup name.lexeme).isSome) with
  | some d => { s with locals := mapInsert s.locals name d }
  | none => s

/-- `self.scopes.last_mut().unwrap().insert(key, true)` — used by
`visit_class` right after a `begin_scope`, where the stack is never
empty (on an empty stack this model leaves the state unchanged). -/
def insertLast (s : RState) (key : String) : RState :=
  match s.scopes.getLast? with
  | some scope => setLast s (mapInsert scope key true)
  | none => s

/-- The parameter loop of `resolve_function` (`declare` then `define`). -/
def declareParams (s : RState) : List Token → RState
  | [] => s
  | p :: ps => declareParams (define (declare s p) p) ps

/-! The resolver walk is a structural recursion over the tree in Rust;
here it carries fuel (like the parser and the evaluator) so that the
definitions reduce computationally; at fuel 0 the state is returned
unchanged, and any actual resolver run is reproduced by every
sufficiently large fuel. -/

mutual

/-- `stmt.accept(resolver)`: the `stmt::Visitor` impl of `resolver.rs`. -/
def resolveStmt : Nat → RState → Stmt → RState
  | 0, s, _ => s
  | fuel + 1, s, stmt =>
    match stmt with
    | .Block statements => endScope (resolveStmts fuel (beginScope s) statements)
    | .Class name superclass methods =>
      let enclosingClass := s.currentClass
      let s := { s with currentClass := .Class }
      let s := define (declare s name) name
      let s :=
        match superclass with
        | some scTok =>
          if name.lexeme = scTok.lexeme then
            rerror s scTok "A class can\x27t inherit from itself."
          else s
        | none => s
      let s :=
        match superclass with
        | some scTok =>
          resolveExpr fuel { s with currentClass := .Subclass } (Expr.Variable scTok)
        | none => s
      let s :=
        match superclass with
        | some _ => insertLast (beginScope s) "super"
        | none => s
      let s := insertLast (beginScope s) "this"
      let s := resolveMethods fuel s methods
      let s := endScope s
      let s :=
        match superclass with
        | some _ => endScope s
        | none => s
      { s with currentClass := enclosingClass }
    | .Expression e => resolveExpr fuel s e
    | .Function f =>
      let s := define (declare s f.name) f.name
      resolveFunction fuel s f .Function
    | .If condition thenBranch elseBranch =>
      let s := resolveStmt fuel (resolveExpr fuel s condition) thenBranch
      match elseBranch with
      | some eb => resolveStmt fuel s eb
      | none => s
    | .Print e => resolveExpr fuel s e
    | .Return keyword value =>
      let s :=
        if s.currentFunction = .None then
          rerror s keyword "Can\x27t return from top-level code."
        else s
      match value with
      | some v =>
        let s :=
          if s.currentFunction = .Initializer then
            rerror s keyword "Can\x27t return a value from an initializer."
          else s
        resolveExpr fuel s v
      | none => s
    | .Var name initializer =>
      let s := declare s name
      let s :=
        match initializer with
        | some ini => resolveExpr fuel s ini
        | none => s
      define s name
    | .While condition body => resolveStmt fuel (resolveExpr fuel s condition) body

def resolveStmts : Nat → RState → List Stmt → RState
  | 0, s, _ => s
  | fuel + 1, s, stmts =>
    match stmts with
    | [] => s
    | stmt :: rest => resolveStmts fuel (resolveStmt fuel s stmt) rest

/-- `Resolver::resolve_function`. -/
def resolveFunction : Nat → RState → FunctionDecl → FunctionType → RState
  | 0, s, _, _ => s
  | fuel + 1, s, f, type =>
    match f with
    | .mk _ params body =>
      let enclosingFunction := s.currentFunction
      let s := { s with currentFunction := type }
      let s := declareParams (beginScope s) params
      let s := endScope (resolveStmts fuel s body)
      { s with currentFunction := enclosingFunction }

/-- The method loop inside `visit_class`: kind `Initializer` when the
method is named `init`, else `Method`. -/
def resolveMethods : Nat → RState → List FunctionDecl → RState
  | 0, s, _ => s
  | fuel + 1, s, methods =>
    match methods with
    | [] => s
    | m :: rest =>
      let declaration : FunctionType :=
        if m.name.lexeme = "init" then .Initializer else .Method
      resolveMethods fuel (resolveFunction fuel s m declaration) rest

/-- `expr.accept(resolver)`: the `expr::Visitor` impl of `resolver.rs`.
(As with the interpreter, `expr.rs` has no `Super` variant, so
`resolver.rs`'s `visit_super` has no corresponding case.) -/
def resolveExpr : Nat → RState → Expr → RState
  | 0, s, _ => s
  | fuel + 1, s, e =>
    match e with
    | .Assign name value => resolveLocal (resolveExpr fuel s value) name
    | .Binary left _ right => resolveExpr fuel (resolveExpr fuel s left) right
    | .Call callee _ arguments => resolveExprs fuel (resolveExpr fuel s callee) arguments
    | .Get object _ => resolveExpr fuel s object
    | .Grouping g => resolveExpr fuel s g
    | .Literal _ => s
    | .Logical left _ right => resolveExpr fuel (resolveExpr fuel s left) right
    | .Set object _ value => resolveExpr fuel (resolveExpr fuel s value) object
    | .This keyword =>
      if s.currentClass = .None then
        rerror s keyword "Can\x27t use \x27this\x27 outside of a class."
      else resolveLocal s keyword
    | .Unary _ right => resolveExpr fuel s right
    | .Variable name =>
      match s.scopes.getLast? with
      | none => s
      | some scope =>
        let s :=
          if scope.lookup name.lexeme = some false then
            rerror s name "Can\x27t read local variable in its own initializer"
          else s
        resolveLocal s name

def resolveExprs : Nat → RState → List Expr → RState
  | 0, s, _ => s
  | fuel + 1, s, es =>
    match es with
    | [] => s
    | e :: rest => resolveExprs fuel (resolveExpr fuel s e) rest

end

end Resolver

/-! ## The `run` pipeline (`main.rs`)

`run`: parse the token stream, exit 65 when the parser set `HAD_ERROR`,
flatten the statement options, resolve, exit 65 when the resolver set
`HAD_ERROR`, interpret.  The two exit-65 paths are collapsed to `none`
here; a completed run returns the interpreter outcome and final state. -/

def runTokens (fuel : Nat) (tokens : List Token) :
    Option (Interp.ROut Unit × St) :=
  match Parser.parse fuel (Parser.initState tokens) with
  | some (.ok stmtOpts, pst) =>
    if pst.hadError then none
    else
      let stmts := stmtOpts.filterMap id
      let r := Resolver.resolveStmts fuel Resolver.initRState stmts
      if r.hadError then none
      else Interp.interpret fuel stmts { Interp.newInterpreter with locals := r.locals }
  | _ => none

/-! ## Syntactic variable-read sites

A predicate marking the syntax-tree nodes at which the resolver reads a
variable name against the scope stack: `Variable` expressions, and the
synthesized superclass `Variable` that `visit_class` resolves.  Used to
state that the read-in-own-initializer message arises nowhere else. -/

mutual
def hasVarReadE : Expr → Bool
  | .Assign _ value => hasVarReadE value
  | .Binary left _ right => hasVarReadE left || hasVarReadE right
  | .Call callee _ arguments => hasVarReadE callee || hasVarReadEL arguments
  | .Get object _ => hasVarReadE object
  | .Grouping e => hasVarReadE e
  | .Literal _ => false
  | .Logical left _ right => hasVarReadE left || hasVarReadE right
  | .Set object _ value => hasVarReadE object || hasVarReadE value
  | .This _ => false
  | .Unary _ right => hasVarReadE right
  | .Variable _ => true

def hasVarReadEL : List Expr → Bool
  | [] => false
  | e :: rest => hasVarReadE e || hasVarReadEL rest
end

mutual
def hasVarReadS : Stmt → Bool
  | .Block statements => hasVarReadSL statements
  | .Class _ superclass methods => superclass.isSome || hasVarReadFL methods
  | .Expression e => hasVarReadE e
  | .Function f => hasVarReadF f
  | .If condition thenBranch elseBranch =>
    hasVarReadE condition || hasVarReadS thenBranch ||
      (match elseBranch with
       | some eb => hasVarReadS eb
       | none => false)
  | .Print e => hasVarReadE e
  | .Return _ value =>
    match value with
    | some v => hasVarReadE v
    | none => false
  | .Var _ initializer =>
    match initializer with
    | some ini => hasVarReadE ini
    | none => false
  | .While condition body => hasVarReadE condition || hasVarReadS body

def hasVarReadSL : List Stmt → Bool
  | [] => false
  | s :: rest => hasVarReadS s || hasVarReadSL rest

def hasVarReadF : FunctionDecl → Bool
  | .mk _ _ body => hasVarReadSL body

def hasVarReadFL : List FunctionDecl → Bool
  | [] => false
  | f :: rest => hasVarReadF f || hasVarReadFL rest
end

/-- The message `resolver.rs` actually emits at a read-in-own-initializer
(note: no trailing period in the source). -/
def c8Msg : String := "Can\x27t read local variable in its own initializer"

/-- The messages of a resolver state's error sink. -/
def Resolver.msgs (s : Resolver.RState) : List String := s.errors.map (fun p => p.2)

/-- Modelled from the spec: the `for`-desugaring target tree, following
the spec's words — "for (a; b; c) body behaves observably identically to
\x7b a; while (b) \x7b body; c; \x7d \x7d with b defaulting to true and
a, c optional": the initializer (when present) is prepended in an outer
block, the increment (when present) is appended after the body inside a
block, an absent condition becomes the literal true. -/
def desugarForSpec (initializer : Option Stmt) (condition : Option Expr)
    (increment : Option Expr) (body : Stmt) : Stmt :=
  let loopBody :=
    match increment with
    | some inc => Stmt.Block [body, Stmt.Expression inc]
    | none => body
  let whileStmt :=
    Stmt.While (condition.getD (Expr.Literal (some (.Boolean true)))) loopBody
  match initializer with
  | some ini => Stmt.Block [ini, whileStmt]
  | none => whileStmt

/-! ## Concrete programs used as evidence -/

def mkTok (type : TokenType) (lexeme : String) (line col : Nat) : Token :=
  ⟨type, lexeme, none, line, col⟩

/-- A bare-`return;` initializer: `init() { return; }`, closure at the
globals environment. -/
def initDecl : FunctionDecl :=
  .mk (mkTok .IDENTIFIER "init" 1 12) [] [Stmt.Return (mkTok .RETURN "return" 1 21) none]

/-- `class Foo { init() { return; } }` as a runtime class value. -/
def fooClass : LoxClass := .mk "Foo" none [("init", ⟨initDecl, 0, true⟩)]

/-- The state after calling `Foo()` from the initial interpreter state. -/
def fooClassState : St :=
  match Interp.callClass 10 fooClass [] Interp.newInterpreter with
  | some (_, st) => st
  | none => Interp.newInterpreter

/-- Parse outcome projection: collected statement options, recorded
errors, and the `HAD_ERROR` flag (`none` on fuel-out or panic). -/
def parseOutcome (fuel : Nat) (tokens : List Token) :
    Option (List (Option Stmt) × List (Token × String) × Bool) :=
  match Parser.parse fuel (Parser.initState tokens) with
  | some (.ok l, pst) => some (l, pst.errors, pst.hadError)
  | _ => none

/-- `parse_expr` outcome projection. -/
def parseExprOutcome (fuel : Nat) (tokens : List Token) :
    Option (Option Expr × List (Token × String)) :=
  match Parser.parseExpr fuel (Parser.initState tokens) with
  | some (.ok r, pst) => some (r, pst.errors)
  | _ => none

/-- Token stream of `class B < A {}` (C2). -/
def classSupToks : List Token :=
  [mkTok .CLASS "class" 1 0, mkTok .IDENTIFIER "B" 1 6, mkTok .LESS "<" 1 8,
   mkTok .IDENTIFIER "A" 1 10, mkTok .LEFT_BRACE "\x7b" 1 12,
   mkTok .RIGHT_BRACE "\x7d" 1 13, mkTok .EOF "" 1 14]

/-- Token stream of the expression `super.m` followed by `;` (C2). -/
def superExprToks : List Token :=
  [mkTok .SUPER "super" 1 0, mkTok .DOT "." 1 5, mkTok .IDENTIFIER "m" 1 6,
   mkTok .SEMICOLON ";" 1 7, mkTok .EOF "" 1 8]

/-- C6: the five `i` occurrences, shared verbatim between the `for` form
and the hand-desugared `while` form so that corresponding tree nodes
carry identical tokens. -/
def iDeclTok : Token := mkTok .IDENTIFIER "i" 1 110
def iCondTok : Token := mkTok .IDENTIFIER "i" 1 111
def iAssignTok : Token := mkTok .IDENTIFIER "i" 1 112
def iRhsTok : Token := mkTok .IDENTIFIER "i" 1 113
def iPrintTok : Token := mkTok .IDENTIFIER "i" 1 114
def lessTok : Token := mkTok .LESS "<" 1 115
def plusTok : Token := mkTok .PLUS "+" 1 116

def numTok (lexeme : String) (q : ℚ) (col : Nat) : Token :=
  ⟨.NUMBER, lexeme, some (.Number q), 1, col⟩

/-- Token stream of `for (var i = 0; i < 3; i = i + 1) print i;`. -/
def c6ForToks : List Token :=
  [mkTok .FOR "for" 1 0, mkTok .LEFT_PAREN "(" 1 4,
   mkTok .VAR "var" 1 5, iDeclTok, mkTok .EQUAL "=" 1 11, numTok "0" 0 12,
   mkTok .SEMICOLON ";" 1 13,
   iCondTok, lessTok, numTok "3" 3 16, mkTok .SEMICOLON ";" 1 17,
   iAssignTok, mkTok .EQUAL "=" 1 20, iRhsTok, plusTok, numTok "1" 1 24,
   mkTok .RIGHT_PAREN ")" 1 25,
   mkTok .PRINT "print" 1 27, iPrintTok, mkTok .SEMICOLON ";" 1 34,
   mkTok .EOF "" 1 35]

/-- Token stream of `{ var i = 0; while (i < 3) { print i; i = i + 1; } }`
with the stored tokens identical to those of `c6ForToks`. -/
def c6WhileToks : List Token :=
  [mkTok .LEFT_BRACE "\x7b" 1 0,
   mkTok .VAR "var" 1 2, iDeclTok, mkTok .EQUAL "=" 1 8, numTok "0" 0 9,
   mkTok .SEMICOLON ";" 1 10,
   mkTok .WHILE "while" 1 12, mkTok .LEFT_PAREN "(" 1 18,
   iCondTok, lessTok, numTok "3" 3 22, mkTok .RIGHT_PAREN ")" 1 23,
   mkTok .LEFT_BRACE "\x7b" 1 25,
   mkTok .PRINT "print" 1 27, iPrintTok, mkTok .SEMICOLON ";" 1 34,
   iAssignTok, mkTok .EQUAL "=" 1 38, iRhsTok, plusTok, numTok "1" 1 42,
   mkTok .SEMICOLON ";" 1 43,
   mkTok .RIGHT_BRACE "\x7d" 1 45, mkTok .RIGHT_BRACE "\x7d" 1 47,
   mkTok .EOF "" 1 48]

/-- The common tree both C6 streams parse to. -/
def c6Tree : Stmt :=
  Stmt.Block
    [Stmt.Var iDeclTok (some (Expr.Literal (some (.Number 0)))),
     Stmt.While (Expr.Binary (Expr.Variable iCondTok) lessTok
         (Expr.Literal (some (.Number 3))))
       (Stmt.Block
         [Stmt.Print (Expr.Variable iPrintTok),
          Stmt.Expression (Expr.Assign iAssignTok
            (Expr.Binary (Expr.Variable iRhsTok) plusTok
              (Expr.Literal (some (.Number 1)))))])]

/-- C1: the tokens of the one-line program `for (var i = 0; i; i) \x7b\x7d`
*as the scanner builds them* — `scanner.rs` supplies no column, so every
occurrence of `i` is the same token record (here all columns are a
fixed 0).  The desugared loop reads `i` once as the condition (defining
scope 0 hops away) and once inside the loop-body block (1 hop away). -/
def c1Tokens : List Token :=
  [mkTok .FOR "for" 1 0, mkTok .LEFT_PAREN "(" 1 0,
   mkTok .VAR "var" 1 0, mkTok .IDENTIFIER "i" 1 0, mkTok .EQUAL "=" 1 0,
   numTok "0" 0 0, mkTok .SEMICOLON ";" 1 0,
   mkTok .IDENTIFIER "i" 1 0, mkTok .SEMICOLON ";" 1 0,
   mkTok .IDENTIFIER "i" 1 0, mkTok .RIGHT_PAREN ")" 1 0,
   mkTok .LEFT_BRACE "\x7b" 1 0, mkTok .RIGHT_BRACE "\x7d" 1 0,
   mkTok .EOF "" 1 0]

/-- The statements the parser collects from `c1Tokens` (flattened as
`main.rs` does). -/
def c1Stmts : List Stmt :=
  match Parser.parse 50 (Parser.initState c1Tokens) with
  | some (.ok l, _) => l.filterMap id
  | _ => []

/-- C8: `{ var a = a; }` — the declaration token and the initializer
read of `a` are distinct occurrences. -/
def aDeclTok : Token := mkTok .IDENTIFIER "a" 1 6
def aReadTok : Token := mkTok .IDENTIFIER "a" 1 10

def c8Prog : List Stmt :=
  [Stmt.Block [Stmt.Var aDeclTok (some (Expr.Variable aReadTok))]]

/-! ## Theorems -/

/-! The `mkRat`-based arithmetic agrees with the standard ℚ operations. -/

theorem ratAdd_eq (a b : ℚ) : ratAdd a b = a + b := by
  have ha : ((a.den : ℚ)) ≠ 0 := by exact_mod_cast a.den_nz
  have hb : ((b.den : ℚ)) ≠ 0 := by exact_mod_cast b.den_nz
  rw [ratAdd, Rat.mkRat_eq_div]
  push_cast
  conv_rhs => rw [← Rat.num_div_den a, ← Rat.num_div_den b]
  field_simp

theorem ratSub_eq (a b : ℚ) : ratSub a b = a - b := by
  have ha : ((a.den : ℚ)) ≠ 0 := by exact_mod_cast a.den_nz
  have hb : ((b.den : ℚ)) ≠ 0 := by exact_mod_cast b.den_nz
  rw [ratSub, Rat.mkRat_eq_div]
  push_cast
  conv_rhs => rw [← Rat.num_div_den a, ← Rat.num_div_den b]
  field_simp
  ring

theorem ratMul_eq (a b : ℚ) : ratMul a b = a * b := by
  have ha : ((a.den : ℚ)) ≠ 0 := by exact_mod_cast a.den_nz
  have hb : ((b.den : ℚ)) ≠ 0 := by exact_mod_cast b.den_nz
  rw [ratMul, Rat.mkRat_eq_div]
  push_cast
  conv_rhs => rw [← Rat.num_div_den a, ← Rat.num_div_den b]
  field_simp

theorem ratNeg_eq (a : ℚ) : ratNeg a = -a := by
  have ha : ((a.den : ℚ)) ≠ 0 := by exact_mod_cast a.den_nz
  rw [ratNeg, Rat.mkRat_eq_div]
  push_cast
  conv_rhs => rw [← Rat.num_div_den a]
  field_simp

theorem ratDiv_eq (a b : ℚ) : ratDiv a b = a / b := by
  rcases eq_or_ne b 0 with rfl | hb0
  · simp [ratDiv]
  · have ha : ((a.den : ℚ)) ≠ 0 := by exact_mod_cast a.den_nz
    have hbd : ((b.den : ℚ)) ≠ 0 := by exact_mod_cast b.den_nz
    have hbn : b.num ≠ 0 := Rat.num_ne_zero.mpr hb0
    have hbq : ((b.num : ℚ)) ≠ 0 := by exact_mod_cast hbn
    rw [ratDiv, Rat.mkRat_eq_div]
    rcases lt_or_gt_of_ne hbn with hneg | hpos
    · rw [if_pos hneg]
      push_cast [Int.cast_natAbs]
      rw [abs_of_neg (show (b.num : ℚ) < 0 by exact_mod_cast hneg)]
      conv_rhs => rw [← Rat.num_div_den a, ← Rat.num_div_den b]
      field_simp
    · rw [if_neg (by omega)]
      push_cast [Int.cast_natAbs]
      rw [abs_of_pos (show (0 : ℚ) < (b.num : ℚ) by exact_mod_cast hpos)]
      conv_rhs => rw [← Rat.num_div_den a, ← Rat.num_div_den b]
      field_simp


/-- C7: `execute_block` restores the interpreter's previously active
environment on every exit path (normal completion, `Return` signal,
runtime error), and `visit_block` runs the statements in a freshly
allocated environment whose `enclosing` is the prior active one. -/
theorem execute_block_restores_environment :
    (∀ (fuel : Nat) (stmts : List Stmt) (envAddr : Nat) (st : St)
        (r : Interp.ROut Unit) (st' : St),
        Interp.executeBlock fuel stmts envAddr st = some (r, st') →
        st'.environment = st.environment)
    ∧
    (∀ (fuel : Nat) (st : St) (stmts : List Stmt),
        Interp.execute (fuel + 1) (Stmt.Block stmts) st =
          Interp.executeBlock fuel stmts st.envs.length
            { st with envs := st.envs ++ [EnvData.mk (some st.environment) []] }
        ∧ st.envs.get? st.envs.length = none
        ∧ (st.envs ++ [EnvData.mk (some st.environment) []]).get? st.envs.length =
            some (EnvData.mk (some st.environment) [])) := by
  constructor
  · intro fuel stmts envAddr st r st' h
    cases fuel with
    | zero => exact absurd h (by simp [Interp.executeBlock, Interp.efuelout])
    | succ n =>
      simp only [Interp.executeBlock] at h
      cases h' : Interp.executeStmts n stmts { st with environment := envAddr } with
      | none => rw [h'] at h; cases h
      | some p =>
        rw [h'] at h
        cases p with
        | mk o st₂ =>
          simp only [Option.some.injEq, Prod.mk.injEq] at h
          rw [← h.2]
  · intro fuel st stmts
    refine ⟨rfl, ?_, ?_⟩
    · exact List.get?_eq_none.mpr (le_refl _)
    · exact List.get?_concat_length _ _

/-- Witness for C7 at a concrete input: a block body run in environment
address 5 with the interpreter's initial state active; the final state's
environment is the prior one. -/
theorem execute_block_restores_environment_witness :
    Interp.newInterpreter.environment = Interp.newInterpreter.environment :=
  execute_block_restores_environment.1 2 [] 5 Interp.newInterpreter (.ok ())
    Interp.newInterpreter rfl

/-- C5: evaluating binary `+` on two evaluated operands returns the
numeric sum when both are numbers, the concatenation when both are
strings, and otherwise raises a runtime error whose message is exactly
"Operands must be two numbers or two strings." carrying the operator
token; it raises in no other case. -/
theorem binary_plus_spec :
    ∀ (fuel : Nat) (st : St) (operator : Token) (l r : Option Value),
      operator.type = .PLUS →
      ((∀ a b, l = some (.Number a) → r = some (.Number b) →
          Interp.binaryOp fuel operator l r st = some (.ok (some (.Number (a + b))), st))
       ∧ (∀ a b, l = some (.String a) → r = some (.String b) →
          Interp.binaryOp fuel operator l r st = some (.ok (some (.String (a ++ b))), st))
       ∧ ((¬ ∃ a b, l = some (.Number a) ∧ r = some (.Number b)) →
          (¬ ∃ a b, l = some (.String a) ∧ r = some (.String b)) →
          Interp.binaryOp fuel operator l r st =
            some (.exc (.RuntimeError "Operands must be two numbers or two strings." operator),
              st))) := by
  intro fuel st operator l r hop
  refine ⟨?_, ?_, ?_⟩
  · rintro a b rfl rfl
    simp [Interp.binaryOp, hop, Interp.numberCast, ratAdd_eq]
    rfl
  · rintro a b rfl rfl
    simp [Interp.binaryOp, hop, Interp.numberCast, Interp.stringCast]
    rfl
  · intro hn hs
    simp only [Interp.binaryOp, hop]
    rcases l with _ | lv
    · rcases r with _ | rv
      · rfl
      · cases rv <;> rfl
    · rcases r with _ | rv
      · cases lv <;> rfl
      · rcases lv with s | q | b | c | i <;> rcases rv with s' | q' | b' | c' | i' <;>
          try rfl
        · exact absurd ⟨s, s', rfl, rfl⟩ hs
        · exact absurd ⟨q, q', rfl, rfl⟩ hn

/-- Unfolding `>>=` in the parser monad. -/
theorem PM_bind_apply (x : Parser.PM α) (f : α → Parser.PM β) (st : Parser.PState) :
    (x >>= f) st =
      match x st with
      | none => none
      | some (.ok a, st') => f a st'
      | some (.err, st') => some (.err, st')
      | some (.panic, st') => some (.panic, st') := rfl

theorem filterMap_id_length_of_isSome :
    ∀ (l : List (Option α)), (∀ x ∈ l, x.isSome) → (l.filterMap id).length = l.length := by
  intro l
  induction l with
  | nil => intro; rfl
  | cons x xs ih =>
    intro h
    have hx := h x (List.mem_cons_self x xs)
    rcases x with _ | a
    · cases hx
    · simpa using ih (fun y hy => h y (List.mem_cons_of_mem _ hy))

theorem parseLoop_all_isSome (fuel : Nat) :
    ∀ (acc : List (Option Stmt)) (st : Parser.PState) (res : List (Option Stmt))
      (st' : Parser.PState),
      (∀ x ∈ acc, x.isSome) →
      Parser.parseLoop fuel acc st = some (.ok res, st') →
      ∀ x ∈ res, x.isSome := by
  induction fuel with
  | zero =>
    intro acc st res st' hacc h
    cases h
  | succ n ih =>
    intro acc st res st' hacc h
    simp only [Parser.parseLoop] at h
    rw [PM_bind_apply] at h
    rcases hA : Parser.isAtEnd st with _ | ⟨o, st₁⟩
    · rw [hA] at h; cases h
    · rw [hA] at h
      rcases o with b | _ | _
      · rcases b with _ | _
        · -- not at end: parse one declaration
          simp only [Bool.not_false, if_true] at h
          rw [PM_bind_apply] at h
          rcases hB : Parser.tryPM (Parser.declaration n) st₁ with _ | ⟨r, st₂⟩
          · rw [hB] at h; cases h
          · rw [hB] at h
            rcases r with r' | _ | _
            · rcases r' with _ | s
              · -- declaration failed: synchronize, keep accumulating
                replace h :
                    (Parser.synchronize n >>= fun _ => Parser.parseLoop n acc) st₂ =
                      some (.ok res, st') := h
                rw [PM_bind_apply] at h
                rcases hC : Parser.synchronize n st₂ with _ | ⟨u, st₃⟩
                · rw [hC] at h; cases h
                · rw [hC] at h
                  rcases u with _ | _ | _
                  · exact ih acc st₃ res st' hacc h
                  · cases h
                  · cases h
              · -- declaration succeeded: push `some s`
                refine ih (acc ++ [some s]) st₂ res st' ?_ h
                intro x hx
                rcases List.mem_append.mp hx with hx | hx
                · exact hacc x hx
                · rcases List.mem_singleton.mp hx with rfl
                  rfl
            · cases h
            · cases h
        · -- at end: return the accumulator
          simp only [Bool.not_true, if_false] at h
          cases h
          exact hacc
      · cases h
      · cases h

/-- C10: the statement list returned by `Parser::parse` contains no
`None` element — a failed declaration is discarded during
synchronization rather than pushed — so flattening the returned
`Vec<Option<Stmt>>` drops no successfully parsed statement. -/
theorem parse_never_pushes_none :
    ∀ (fuel : Nat) (st : Parser.PState) (res : List (Option Stmt)) (st' : Parser.PState),
      Parser.parse fuel st = some (.ok res, st') →
      (∀ x ∈ res, x.isSome) ∧ (res.filterMap id).length = res.length := by
  intro fuel st res st' h
  have hall := parseLoop_all_isSome fuel [] st res st' (by intro x hx; cases hx) h
  exact ⟨hall, filterMap_id_length_of_isSome res hall⟩

/-- Witness for C10 at a concrete input: the token stream of
`var x = ; print 3;` parses with the broken declaration discarded and
only the recovered print statement collected — every element `Some`. -/
theorem parse_never_pushes_none_witness :
    (∀ x ∈ [some (Stmt.Print (Expr.Literal (some (.Number 3))))], Option.isSome x) ∧
      ([some (Stmt.Print (Expr.Literal (some (.Number 3))))].filterMap id).length =
        [some (Stmt.Print (Expr.Literal (some (.Number 3))))].length :=
  parse_never_pushes_none 50
    (Parser.initState
      [⟨.VAR, "var", none, 1, 0⟩, ⟨.IDENTIFIER, "x", none, 1, 4⟩,
       ⟨.EQUAL, "=", none, 1, 6⟩, ⟨.SEMICOLON, ";", none, 1, 8⟩,
       ⟨.PRINT, "print", none, 1, 10⟩, ⟨.NUMBER, "3", some (.Number 3), 1, 16⟩,
       ⟨.SEMICOLON, ";", none, 1, 17⟩, ⟨.EOF, "", none, 1, 18⟩])
    [some (Stmt.Print (Expr.Literal (some (.Number 3))))]
    { tokens :=
        [⟨.VAR, "var", none, 1, 0⟩, ⟨.IDENTIFIER, "x", none, 1, 4⟩,
         ⟨.EQUAL, "=", none, 1, 6⟩, ⟨.SEMICOLON, ";", none, 1, 8⟩,
         ⟨.PRINT, "print", none, 1, 10⟩, ⟨.NUMBER, "3", some (.Number 3), 1, 16⟩,
         ⟨.SEMICOLON, ";", none, 1, 17⟩, ⟨.EOF, "", none, 1, 18⟩],
      current := 7,
      errors := [(⟨.SEMICOLON, ";", none, 1, 8⟩, "Expect expression.")],
      hadError := true }
    (by rfl)

/-- C4 counterexample: two *distinct* freshly constructed instances of
the same (method-less) class with equal (empty) field maps compare
**equal** under `Interpreter::is_equal` — the derived `PartialEq`
compares `Rc` contents, not handles — contradicting the claim that
instances compare by identity of their shared handle. -/
theorem is_equal_identity_counterexample :
    (0 : Nat) ≠ 1 ∧
      Interp.isEqual 5
        { envs := [], fieldMaps := [[], []], globals := 0, environment := 0,
          locals := [], output := [], runtimeErrors := [], hadRuntimeError := false,
          now := 0 }
        (some (.LoxInstance ⟨LoxClass.mk "K" none [], 0⟩))
        (some (.LoxInstance ⟨LoxClass.mk "K" none [], 1⟩)) = some true :=
  ⟨by decide, rfl⟩

/-- C4 amended: `==` / `!=` on instances compare *structurally* — class
contents and field-map contents — not by handle identity: any two
instances of a same-named method-less class with equal (empty) field
maps compare equal, whether the handles are distinct or aliased. -/
theorem instance_equality_structural :
    ∀ (gas : Nat) (st : St) (nm : String) (a a' : Nat),
      st.fieldMaps.get? a = some [] →
      st.fieldMaps.get? a' = some [] →
      Interp.isEqual (gas + 5) st
        (some (.LoxInstance ⟨LoxClass.mk nm none [], a⟩))
        (some (.LoxInstance ⟨LoxClass.mk nm none [], a'⟩)) = some true := by
  intro gas st nm a a' ha ha'
  simp only [Interp.isEqual, Interp.valueOptEq, Interp.valueEq, Interp.instanceEq,
    Interp.classEq, Interp.fnMapEq, Interp.valueMapEq, Interp.allOptB, ha, ha',
    LoxClass.name, LoxClass.superclass, LoxClass.methods]
  simp

/-- Witness for the C4 amended theorem: the two concrete instances of
the counterexample state, compared through the theorem. -/
theorem instance_equality_structural_witness :
    Interp.isEqual 5
      { envs := [], fieldMaps := [[], []], globals := 0, environment := 0,
        locals := [], output := [], runtimeErrors := [], hadRuntimeError := false,
        now := 0 }
      (some (.LoxInstance ⟨LoxClass.mk "K" none [], 0⟩))
      (some (.LoxInstance ⟨LoxClass.mk "K" none [], 1⟩)) = some true :=
  instance_equality_structural 0
    { envs := [], fieldMaps := [[], []], globals := 0, environment := 0,
      locals := [], output := [], runtimeErrors := [], hadRuntimeError := false,
      now := 0 }
    "K" 0 1 rfl rfl

/-- Unfolding `>>=` in the evaluator monad. -/
theorem EM_bind_apply (x : Interp.EM α) (f : α → Interp.EM β) (st : St) :
    (x >>= f) st =
      match x st with
      | none => none
      | some (.ok a, st') => f a st'
      | some (.exc e, st') => some (.exc e, st')
      | some (.panic, st') => some (.panic, st') := rfl

/-- `define`-ing the parameters either completes or panics (when the
argument vector is shorter than the parameter list); it never raises
and never consumes fuel. -/
theorem defineParams_ok_or_panic :
    ∀ (ps : List Token) (args : List (Option Value)) (a : Nat) (st : St),
      (∃ st₂, Interp.defineParams a ps args st = some (.ok (), st₂)) ∨
      (∃ st₂, Interp.defineParams a ps args st = some (.panic, st₂)) := by
  intro ps
  induction ps with
  | nil => intro args a st; exact Or.inl ⟨st, rfl⟩
  | cons p rest ih =>
    intro args a st
    rcases args with _ | ⟨v, vs⟩
    · exact Or.inr ⟨st, rfl⟩
    · have hstep : Interp.defineParams a (p :: rest) (v :: vs) st =
          match st.envs.get? a with
          | some d => Interp.defineParams a rest vs
              { st with envs := st.envs.set a ({ d with values := mapInsert d.values p.lexeme v }) }
          | none => some (.panic, st) := by
        simp only [Interp.defineParams]
        rw [EM_bind_apply]
        simp only [Interp.defineVar]
        cases st.envs.get? a <;> rfl
      rw [hstep]
      cases hg : st.envs.get? a with
      | none => exact Or.inr ⟨st, rfl⟩
      | some d => exact ih vs a _

/-- `get_at(0, name)` leaves the state unchanged and either panics
(missing environment or missing name — the two `unwrap`s) or returns
the value bound to `name` in the local map at that address. -/
theorem getAt_zero_spec :
    ∀ (a : Nat) (name : String) (st : St) (r : Interp.ROut (Option Value)) (st' : St),
      Interp.getAt 0 a name st = some (r, st') →
      st' = st ∧ (r = .panic ∨ ∃ d v, st.envs.get? a = some d ∧
        d.values.lookup name = some v ∧ r = .ok v) := by
  intro a name st r st' h
  simp only [Interp.getAt] at h
  rw [EM_bind_apply] at h
  simp only [Interp.getESt] at h
  cases hg : st.envs.get? a with
  | none =>
    rw [hg] at h
    cases h
    exact ⟨rfl, Or.inl rfl⟩
  | some d =>
    rw [hg] at h
    replace h : (match List.lookup name d.values with
        | some v => (pure v : Interp.EM (Option Value))
        | none => Interp.epanic) st = some (r, st') := h
    cases hl : List.lookup name d.values with
    | none =>
      rw [hl] at h
      cases h
      exact ⟨rfl, Or.inl rfl⟩
    | some v =>
      rw [hl] at h
      cases h
      exact ⟨rfl, Or.inr ⟨d, v, rfl, hl, rfl⟩⟩

/-- `LoxFunction::bind` always succeeds, returning the same declaration
and `is_initializer` flag with a fresh closure address defining `this`. -/
theorem bindFunction_spec (m : LoxFunction) (inst : LoxInstance) (st : St) :
    ∃ st₂, Interp.bindFunction m inst st =
      some (.ok ⟨m.declaration, st.envs.length, m.isInitializer⟩, st₂) := by
  simp only [Interp.bindFunction]
  rw [EM_bind_apply]
  simp only [Interp.newEnv]
  rw [EM_bind_apply]
  simp only [Interp.defineVar]
  rw [List.get?_concat_length]
  exact ⟨_, rfl⟩

/-- Core of C3: a call to a function flagged `is_initializer` never
yields the body's outcome — whatever the body did (complete, `return;`,
`return value;`, or even a runtime error, which this code swallows),
the call returns the value bound to `this` in the function's closure
(or panics when no such binding exists). -/
theorem initializer_call_spec :
    ∀ (fuel : Nat) (f : LoxFunction) (args : List (Option Value)) (st : St)
      (r : Interp.ROut (Option Value)) (st' : St),
      f.isInitializer = true →
      Interp.callFunction fuel f args st = some (r, st') →
      r = .panic ∨ ∃ d v, st'.envs.get? f.closure = some d ∧
        d.values.lookup "this" = some v ∧ r = .ok v := by
  intro fuel f args st r st' hinit h
  cases fuel with
  | zero => cases h
  | succ n =>
    simp only [Interp.callFunction] at h
    rw [EM_bind_apply] at h
    simp only [Interp.newEnv] at h
    rw [EM_bind_apply] at h
    rcases defineParams_ok_or_panic f.declaration.params args st.envs.length
        { st with envs := st.envs ++ [⟨some f.closure, []⟩] } with ⟨st₂, hD⟩ | ⟨st₂, hD⟩
    · rw [hD] at h
      dsimp only at h
      rw [EM_bind_apply] at h
      simp only [Interp.reify] at h
      cases hE : Interp.executeBlock n f.declaration.body st.envs.length st₂ with
      | none => rw [hE] at h; cases h
      | some p =>
        rw [hE] at h
        obtain ⟨o, st₃⟩ := p
        cases o with
        | ok u =>
          simp only [hinit, eq_self_iff_true, if_true] at h
          have := getAt_zero_spec f.closure "this" st₃ r st' h
          rcases this with ⟨rfl, hres⟩
          exact hres
        | exc e =>
          cases e with
          | RuntimeError m t =>
            simp only [hinit, eq_self_iff_true, if_true] at h
            have := getAt_zero_spec f.closure "this" st₃ r st' h
            rcases this with ⟨rfl, hres⟩
            exact hres
          | Return rv =>
            simp only [hinit, eq_self_iff_true, if_true] at h
            have := getAt_zero_spec f.closure "this" st₃ r st' h
            rcases this with ⟨rfl, hres⟩
            exact hres
        | panic =>
          cases h
          exact Or.inl rfl
    · rw [hD] at h
      cases h
      exact Or.inl rfl

/-- C3: for a class whose `init` methods carry the `is_initializer`
flag (as `visit_class` always builds them), calling the class returns
the newly constructed instance — even when `init` executes a bare
`return;` — because a call to an `is_initializer` function always
returns the `this` bound in its closure regardless of the `Return`
signal's payload. -/
theorem class_call_returns_instance :
    (∀ (fuel : Nat) (f : LoxFunction) (args : List (Option Value)) (st : St)
        (r : Interp.ROut (Option Value)) (st' : St),
        f.isInitializer = true →
        Interp.callFunction fuel f args st = some (r, st') →
        r = .panic ∨ ∃ d v, st'.envs.get? f.closure = some d ∧
          d.values.lookup "this" = some v ∧ r = .ok v)
    ∧
    (∀ (fuel : Nat) (c : LoxClass) (args : List (Option Value)) (st : St)
        (r : Interp.ROut (Option Value)) (st' : St),
        (∀ ini, c.findMethod "init" = some ini → ini.isInitializer = true) →
        Interp.callClass fuel c args st = some (r, st') →
        r = .panic ∨ r = .ok (some (.LoxInstance ⟨c, st.fieldMaps.length⟩))) := by
  constructor
  · exact initializer_call_spec
  · intro fuel c args st r st' hini h
    cases fuel with
    | zero => cases h
    | succ n =>
      simp only [Interp.callClass] at h
      rw [EM_bind_apply] at h
      simp only [Interp.newFieldMap] at h
      cases hF : c.findMethod "init" with
      | none =>
        rw [hF] at h
        cases h
        exact Or.inr rfl
      | some ini =>
        rw [hF] at h
        dsimp only at h
        rw [EM_bind_apply] at h
        obtain ⟨st₂, hB⟩ := bindFunction_spec ini ⟨c, st.fieldMaps.length⟩
          { st with fieldMaps := st.fieldMaps ++ [[]] }
        rw [hB] at h
        dsimp only at h
        rw [EM_bind_apply] at h
        cases hC : Interp.callFunction n
            ⟨ini.declaration, ({ st with fieldMaps := st.fieldMaps ++ [[]] } : St).envs.length,
              ini.isInitializer⟩ args st₂ with
        | none => rw [hC] at h; cases h
        | some p =>
          rw [hC] at h
          obtain ⟨o, st₃⟩ := p
          cases o with
          | ok v =>
            cases h
            exact Or.inr rfl
          | panic =>
            cases h
            exact Or.inl rfl
          | exc e =>
            have hspec := initializer_call_spec n
              ⟨ini.declaration, ({ st with fieldMaps := st.fieldMaps ++ [[]] } : St).envs.length,
                ini.isInitializer⟩ args st₂ (.exc e) st₃ (hini ini hF) hC
            rcases hspec with hx | ⟨d, v, -, -, hx⟩ <;> cases hx

/-- Witness for C3 at a concrete input: calling
`class Foo \x7b init() \x7b return; \x7d \x7d` with no arguments from
the fresh interpreter state returns the new instance (address 0), even
though `init` executes a bare `return;`. -/
theorem class_call_returns_instance_witness :
    (Interp.ROut.ok (some (.LoxInstance ⟨fooClass,
        Interp.newInterpreter.fieldMaps.length⟩)) : Interp.ROut (Option Value))
        = .panic ∨
    (Interp.ROut.ok (some (.LoxInstance ⟨fooClass,
        Interp.newInterpreter.fieldMaps.length⟩)) : Interp.ROut (Option Value))
        = .ok (some (.LoxInstance ⟨fooClass,
            Interp.newInterpreter.fieldMaps.length⟩)) :=
  class_call_returns_instance.2 10 fooClass [] Interp.newInterpreter _ fooClassState
    (fun ini h => by cases h; rfl) rfl

/-- C2 (evidence of the code bug): the parser as written accepts no
superclass clause — on `class B < A \x7b\x7d` it errors at `<` expecting
the class-body brace and collects no statement — and no `super`
expression: `super.m` falls through `primary` to "Expect expression.".
(The rest of the snapshot expects both: `stmt.rs`'s `Class::new` takes a
superclass argument that `parser.rs`'s two-argument call does not
supply, and `resolver.rs`/`interpreter.rs` implement `visit_super`
against an `expr::Super` variant that `expr.rs` does not define.) -/
theorem parser_rejects_superclass_and_super :
    parseOutcome 50 classSupToks =
      some ([], [(mkTok .LESS "<" 1 8, "Expect \x27\x7b\x27 before class body.")], true) ∧
    parseExprOutcome 50 superExprToks =
      some (none, [(mkTok .SUPER "super" 1 0, "Expect expression.")]) :=
  ⟨rfl, rfl⟩

/-- C9 (evidence of the code bug): scanning `( (` emits two *identical*
token records for the parens at source columns 0 and 2 — the scanner
builds each token from kind, lexeme, literal and line only
(`add_token` calls `Token::new` with four arguments, though `token.rs`'s
`Token::new` takes five, the fifth being `col`), so no emitted field
equals the 0-based offset of the token's first character in its line. -/
theorem scanner_emits_no_column :
    (Scanner.scanTokens 10 "( (").map (fun st => (st.tokens, st.errors)) =
      some ([⟨.LEFT_PAREN, "(", none, 1⟩, ⟨.LEFT_PAREN, "(", none, 1⟩,
             ⟨.EOF, "", none, 1⟩], []) :=
  rfl

set_option maxRecDepth 4000 in
/-- C1 (evidence of the code bug): the side table is keyed by full token
equality, and `interpreter.rs`'s own comment asserts tokens are unique
"because [the token] contains the source index" — but the scanner
supplies no column, so on the one-line program
`for (var i = 0; i; i) \x7b\x7d` both reads of `i` share one key.  The
loop-condition read needs distance 0 (its defining block scope), the
loop-body read records distance 1, the single surviving entry is 1, and
evaluating the condition walks one hop past the defining scope into
globals, where the `get_at` unwrap misses `i` and panics — while the
resolver itself reported no error, so `run` would reach execution. -/
theorem resolver_distance_collision_panic :
    (runTokens 50 c1Tokens).map Prod.fst = some .panic ∧
    (Resolver.resolveStmts 50 Resolver.initRState c1Stmts).hadError = false ∧
    (Resolver.resolveStmts 50 Resolver.initRState c1Stmts).locals.lookup
      (mkTok .IDENTIFIER "i" 1 0) = some 1 :=
  ⟨rfl, rfl, rfl⟩

/-- Peeling one monadic bind: if every `ok` exit of the continuation
satisfies `P`, so does every `ok` exit of the whole computation. -/
theorem PM_bind_ok_shape {α β : Type} {P : β → Prop} (x : Parser.PM α)
    (k : α → Parser.PM β)
    (hk : ∀ a st₁ r st₂, k a st₁ = some (.ok r, st₂) → P r) :
    ∀ st r st₂, (x >>= k) st = some (.ok r, st₂) → P r := by
  intro st r st₂ h
  rw [PM_bind_apply] at h
  cases hx : x st with
  | none => rw [hx] at h; cases h
  | some p =>
    rw [hx] at h
    obtain ⟨o, st₁⟩ := p
    cases o with
    | ok a => exact hk a st₁ r st₂ h
    | err => cases h
    | panic => cases h

set_option maxRecDepth 4000 in
/-- Peeling one monadic bind toward the for-desugaring shape: the
predicate is fixed so the unifier only has to split the bind. -/
theorem PM_bind_for_shape {α : Type} (x : Parser.PM α)
    (k : α → Parser.PM Stmt)
    (hk : ∀ a st₁ r st₂, k a st₁ = some (.ok r, st₂) →
      ∃ ini cond inc body, r = desugarForSpec ini cond inc body) :
    ∀ st r st₂, (x >>= k) st = some (.ok r, st₂) →
      ∃ ini cond inc body, r = desugarForSpec ini cond inc body :=
  PM_bind_ok_shape x k hk

/-- C6: every successful `for_statement` parse yields exactly the
spec's desugared while-block (initializer prepended in an outer block,
increment appended after the body inside a block, absent condition
replaced by the literal `true`); and concretely, the token streams of
`for (var i = 0; i < 3; i = i + 1) print i;` and of
`\x7b var i = 0; while (i < 3) \x7b print i; i = i + 1; \x7d \x7d`
parse to the *same* tree and the full `run` pipeline prints the same
output on both. -/
theorem for_desugars_to_while :
    (∀ (fuel : Nat) (st : Parser.PState) (r : Stmt) (st' : Parser.PState),
        Parser.forStatement fuel st = some (.ok r, st') →
        ∃ ini cond inc body, r = desugarForSpec ini cond inc body) ∧
    parseOutcome 100 c6ForToks = some ([some c6Tree], [], false) ∧
    parseOutcome 100 c6WhileToks = some ([some c6Tree], [], false) ∧
    runTokens 100 c6ForToks = runTokens 100 c6WhileToks := by
  have hF : Parser.parse 100 (Parser.initState c6ForToks) =
      some (.ok [some c6Tree], ⟨c6ForToks, 20, [], false⟩) := rfl
  have hW : Parser.parse 100 (Parser.initState c6WhileToks) =
      some (.ok [some c6Tree], ⟨c6WhileToks, 24, [], false⟩) := rfl
  refine ⟨?_, rfl, rfl, ?_⟩
  case refine_2 =>
    simp only [runTokens, hF, hW]
  intro fuel st r st' h
  cases fuel with
  | zero => cases h
  | succ n =>
    refine PM_bind_for_shape _ _ ?_ st r st' h
    intro u1 s1 r1 s1h h1
    refine PM_bind_for_shape _ _ ?_ s1 r1 s1h h1
    intro ini s2 r2 s2h h2
    refine PM_bind_for_shape _ _ ?_ s2 r2 s2h h2
    intro c1 s3 r3 s3h h3
    cases c1 with
    | false =>
      refine PM_bind_for_shape _ _ ?_ s3 r3 s3h h3
      intro e s4 r4 s4h h4
      refine PM_bind_for_shape _ _ ?_ s4 r4 s4h h4
      intro cond s5 r5 s5h h5
      refine PM_bind_for_shape _ _ ?_ s5 r5 s5h h5
      intro u2 s6 r6 s6h h6
      refine PM_bind_for_shape _ _ ?_ s6 r6 s6h h6
      intro c2 s7 r7 s7h h7
      cases c2 with
      | false =>
        refine PM_bind_for_shape _ _ ?_ s7 r7 s7h h7
        intro e2 s8 r8 s8h h8
        refine PM_bind_for_shape _ _ ?_ s8 r8 s8h h8
        intro inc s9 r9 s9h h9
        refine PM_bind_for_shape _ _ ?_ s9 r9 s9h h9
        intro u3 sa ra sah ha
        refine PM_bind_for_shape _ _ ?_ sa ra sah ha
        intro body sb rb sbh hb
        cases hb
        exact ⟨ini, cond, inc, body, rfl⟩
      | true =>
        refine PM_bind_for_shape _ _ ?_ s7 r7 s7h h7
        intro inc s9 r9 s9h h9
        refine PM_bind_for_shape _ _ ?_ s9 r9 s9h h9
        intro u3 sa ra sah ha
        refine PM_bind_for_shape _ _ ?_ sa ra sah ha
        intro body sb rb sbh hb
        cases hb
        exact ⟨ini, cond, inc, body, rfl⟩
    | true =>
      refine PM_bind_for_shape _ _ ?_ s3 r3 s3h h3
      intro cond s5 r5 s5h h5
      refine PM_bind_for_shape _ _ ?_ s5 r5 s5h h5
      intro u2 s6 r6 s6h h6
      refine PM_bind_for_shape _ _ ?_ s6 r6 s6h h6
      intro c2 s7 r7 s7h h7
      cases c2 with
      | false =>
        refine PM_bind_for_shape _ _ ?_ s7 r7 s7h h7
        intro e2 s8 r8 s8h h8
        refine PM_bind_for_shape _ _ ?_ s8 r8 s8h h8
        intro inc s9 r9 s9h h9
        refine PM_bind_for_shape _ _ ?_ s9 r9 s9h h9
        intro u3 sa ra sah ha
        refine PM_bind_for_shape _ _ ?_ sa ra sah ha
        intro body sb rb sbh hb
        cases hb
        exact ⟨ini, cond, inc, body, rfl⟩
      | true =>
        refine PM_bind_for_shape _ _ ?_ s7 r7 s7h h7
        intro inc s9 r9 s9h h9
        refine PM_bind_for_shape _ _ ?_ s9 r9 s9h h9
        intro u3 sa ra sah ha
        refine PM_bind_for_shape _ _ ?_ sa ra sah ha
        intro body sb rb sbh hb
        cases hb
        exact ⟨ini, cond, inc, body, rfl⟩

/-- Witness for the C6 desugaring-shape theorem at a concrete input:
the body of `c6ForToks` after the FOR keyword parses to the desugared
tree, which is exhibited as a `desugarForSpec` image. -/
theorem for_desugars_to_while_witness :
    ∃ ini cond inc body, c6Tree = desugarForSpec ini cond inc body :=
  for_desugars_to_while.1 99
    { tokens := c6ForToks, current := 1, errors := [], hadError := false }
    c6Tree
    { tokens := c6ForToks, current := 20, errors := [], hadError := false }
    rfl

/-- Witness for C5 at a concrete input: `+` on a boolean and a number
raises exactly the mixed-operand error. -/
theorem binary_plus_spec_witness :
    Interp.binaryOp 0 ⟨.PLUS, "+", none, 1, 0⟩ (some (.Boolean true)) (some (.Number 1))
        Interp.newInterpreter =
      some (.exc (.RuntimeError "Operands must be two numbers or two strings."
        ⟨.PLUS, "+", none, 1, 0⟩), Interp.newInterpreter) :=
  (binary_plus_spec 0 Interp.newInterpreter ⟨.PLUS, "+", none, 1, 0⟩
      (some (.Boolean true)) (some (.Number 1)) rfl).2.2
    (by rintro ⟨a, b, h, -⟩; cases h) (by rintro ⟨a, b, h, -⟩; cases h)

/-! ## C8: the read-in-own-initializer diagnostic -/

theorem resolveLocal_errors (s : Resolver.RState) (n : Token) :
    (Resolver.resolveLocal s n).errors = s.errors := by
  unfold Resolver.resolveLocal; split <;> rfl

theorem resolveLocal_hadError (s : Resolver.RState) (n : Token) :
    (Resolver.resolveLocal s n).hadError = s.hadError := by
  unfold Resolver.resolveLocal; split <;> rfl

theorem mem_msgs_resolveLocal {msg : String} {s : Resolver.RState} {n : Token}
    (h : msg ∈ Resolver.msgs (Resolver.resolveLocal s n)) : msg ∈ Resolver.msgs s := by
  unfold Resolver.msgs at h ⊢; rw [resolveLocal_errors] at h; exact h

theorem mem_msgs_rerror {msg : String} {s : Resolver.RState} {t : Token} {m : String}
    (h : msg ∈ Resolver.msgs (Resolver.rerror s t m)) :
    msg ∈ Resolver.msgs s ∨ msg = m := by
  unfold Resolver.msgs Resolver.rerror at h
  simp only [List.map_append, List.map_cons, List.map_nil, List.mem_append,
    List.mem_cons, List.not_mem_nil, or_false] at h
  exact h

theorem mem_msgs_iteRerror {msg : String} {s : Resolver.RState} {t : Token}
    {m : String} {c : Prop} [Decidable c]
    (h : msg ∈ Resolver.msgs (if c then Resolver.rerror s t m else s)) :
    msg ∈ Resolver.msgs s ∨ msg = m := by
  split at h
  · exact mem_msgs_rerror h
  · exact Or.inl h

theorem mem_msgs_define {msg : String} {s : Resolver.RState} {n : Token}
    (h : msg ∈ Resolver.msgs (Resolver.define s n)) : msg ∈ Resolver.msgs s := by
  unfold Resolver.define at h
  split at h
  · exact h
  · exact h

theorem mem_msgs_insertLast {msg : String} {s : Resolver.RState} {k : String}
    (h : msg ∈ Resolver.msgs (Resolver.insertLast s k)) : msg ∈ Resolver.msgs s := by
  unfold Resolver.insertLast at h
  split at h
  · exact h
  · exact h

theorem mem_msgs_declare {msg : String} {s : Resolver.RState} {n : Token}
    (h : msg ∈ Resolver.msgs (Resolver.declare s n)) :
    msg ∈ Resolver.msgs s ∨ msg = "Already a variable with this name in this scope." := by
  unfold Resolver.declare at h
  split at h
  · exact Or.inl h
  · split at h
    · exact mem_msgs_rerror h
    · exact Or.inl h

theorem c8Msg_ne_already :
    ¬ (c8Msg = "Already a variable with this name in this scope.") := by decide

theorem c8Msg_ne_topReturn :
    ¬ (c8Msg = "Can\x27t return from top-level code.") := by decide

theorem c8Msg_ne_initReturn :
    ¬ (c8Msg = "Can\x27t return a value from an initializer.") := by decide

theorem c8Msg_ne_thisOutside :
    ¬ (c8Msg = "Can\x27t use \x27this\x27 outside of a class.") := by decide

theorem mem_msgs_declare_c8 {s : Resolver.RState} {n : Token}
    (h : c8Msg ∈ Resolver.msgs (Resolver.declare s n)) : c8Msg ∈ Resolver.msgs s :=
  (mem_msgs_declare h).resolve_right c8Msg_ne_already

theorem mem_msgs_declareParams_c8 : ∀ (ps : List Token) (s : Resolver.RState),
    c8Msg ∈ Resolver.msgs (Resolver.declareParams s ps) → c8Msg ∈ Resolver.msgs s := by
  intro ps
  induction ps with
  | nil => exact fun s h => h
  | cons p rest ih =>
    intro s h
    exact mem_msgs_declare_c8 (mem_msgs_define (ih _ h))

/-- The `resolver.rs` error sink receives `c8Msg` only along a
variable-read visit: a resolver run that adds the message to a state
that did not already hold it walked a tree containing a variable read
(or, for a class statement, the superclass reference the resolver reads
as a variable). -/
theorem resolver_c8_only_from_variable : ∀ fuel : Nat,
    (∀ (s : Resolver.RState) (stmt : Stmt),
      c8Msg ∈ Resolver.msgs (Resolver.resolveStmt fuel s stmt) →
      c8Msg ∈ Resolver.msgs s ∨ hasVarReadS stmt = true) ∧
    (∀ (s : Resolver.RState) (stmts : List Stmt),
      c8Msg ∈ Resolver.msgs (Resolver.resolveStmts fuel s stmts) →
      c8Msg ∈ Resolver.msgs s ∨ hasVarReadSL stmts = true) ∧
    (∀ (s : Resolver.RState) (f : FunctionDecl) (ty : Resolver.FunctionType),
      c8Msg ∈ Resolver.msgs (Resolver.resolveFunction fuel s f ty) →
      c8Msg ∈ Resolver.msgs s ∨ hasVarReadF f = true) ∧
    (∀ (s : Resolver.RState) (ms : List FunctionDecl),
      c8Msg ∈ Resolver.msgs (Resolver.resolveMethods fuel s ms) →
      c8Msg ∈ Resolver.msgs s ∨ hasVarReadFL ms = true) ∧
    (∀ (s : Resolver.RState) (e : Expr),
      c8Msg ∈ Resolver.msgs (Resolver.resolveExpr fuel s e) →
      c8Msg ∈ Resolver.msgs s ∨ hasVarReadE e = true) ∧
    (∀ (s : Resolver.RState) (es : List Expr),
      c8Msg ∈ Resolver.msgs (Resolver.resolveExprs fuel s es) →
      c8Msg ∈ Resolver.msgs s ∨ hasVarReadEL es = true) := by
  intro fuel
  induction fuel with
  | zero =>
    exact ⟨fun s x h => Or.inl h, fun s x h => Or.inl h, fun s f t h => Or.inl h,
      fun s x h => Or.inl h, fun s x h => Or.inl h, fun s x h => Or.inl h⟩
  | succ fuel ih =>
    obtain ⟨ihS, ihSL, ihF, ihM, ihE, ihEL⟩ := ih
    refine ⟨?_, ?_, ?_, ?_, ?_, ?_⟩
    · intro s stmt h
      cases stmt with
      | Block statements =>
        rcases ihSL _ _ h with h | h
        · exact Or.inl h
        · exact Or.inr h
      | Class name superclass methods =>
        cases superclass with
        | none =>
          rcases ihM _ _ h with h | h
          · have h2 := mem_msgs_insertLast h
            have h3 : c8Msg ∈ Resolver.msgs (Resolver.define (Resolver.declare
                { s with currentClass := Resolver.ClassType.Class } name) name) := h2
            have h4 := mem_msgs_define h3
            have h5 := mem_msgs_declare_c8 h4
            exact Or.inl h5
          · exact Or.inr h
        | some scTok => exact Or.inr rfl
      | Expression e =>
        rcases ihE _ _ h with h | h
        · exact Or.inl h
        · exact Or.inr h
      | Function f =>
        rcases ihF _ _ _ h with h | h
        · have h2 := mem_msgs_define h
          exact Or.inl (mem_msgs_declare_c8 h2)
        · exact Or.inr h
      | If condition thenBranch elseBranch =>
        cases elseBranch with
        | none =>
          rcases ihS _ _ h with h | h
          · rcases ihE _ _ h with h | h
            · exact Or.inl h
            · exact Or.inr (by simp [hasVarReadS, h])
          · exact Or.inr (by simp [hasVarReadS, h])
        | some eb =>
          rcases ihS _ _ h with h | h
          · rcases ihS _ _ h with h | h
            · rcases ihE _ _ h with h | h
              · exact Or.inl h
              · exact Or.inr (by simp [hasVarReadS, h])
            · exact Or.inr (by simp [hasVarReadS, h])
          · exact Or.inr (by simp [hasVarReadS, h])
      | Print e =>
        rcases ihE _ _ h with h | h
        · exact Or.inl h
        · exact Or.inr h
      | Return keyword value =>
        cases value with
        | none =>
          rcases mem_msgs_iteRerror h with h | h
          · exact Or.inl h
          · exact absurd h c8Msg_ne_topReturn
        | some v =>
          rcases ihE _ _ h with h | h
          · rcases mem_msgs_iteRerror h with h | h
            · rcases mem_msgs_iteRerror h with h | h
              · exact Or.inl h
              · exact absurd h c8Msg_ne_topReturn
            · exact absurd h c8Msg_ne_initReturn
          · exact Or.inr h
      | Var name initializer =>
        cases initializer with
        | none =>
          have h2 := mem_msgs_define h
          exact Or.inl (mem_msgs_declare_c8 h2)
        | some ini =>
          have h2 := mem_msgs_define h
          rcases ihE _ _ h2 with h | h
          · exact Or.inl (mem_msgs_declare_c8 h)
          · exact Or.inr h
      | While condition body =>
        rcases ihS _ _ h with h | h
        · rcases ihE _ _ h with h | h
          · exact Or.inl h
          · exact Or.inr (by simp [hasVarReadS, h])
        · exact Or.inr (by simp [hasVarReadS, h])
    · intro s stmts h
      cases stmts with
      | nil => exact Or.inl h
      | cons stmt rest =>
        rcases ihSL _ _ h with h | h
        · rcases ihS _ _ h with h | h
          · exact Or.inl h
          · exact Or.inr (by simp [hasVarReadSL, h])
        · exact Or.inr (by simp [hasVarReadSL, h])
    · intro s f ty h
      cases f with
      | mk nm ps body =>
        rcases ihSL _ _ h with h | h
        · have h2 := mem_msgs_declareParams_c8 _ _ h
          exact Or.inl h2
        · exact Or.inr h
    · intro s ms h
      cases ms with
      | nil => exact Or.inl h
      | cons m rest =>
        rcases ihM _ _ h with h | h
        · rcases ihF _ _ _ h with h | h
          · exact Or.inl h
          · exact Or.inr (by simp [hasVarReadFL, h])
        · exact Or.inr (by simp [hasVarReadFL, h])
    · intro s e h
      cases e with
      | Assign name value =>
        have h2 := mem_msgs_resolveLocal h
        rcases ihE _ _ h2 with h | h
        · exact Or.inl h
        · exact Or.inr h
      | Binary left op right =>
        rcases ihE _ _ h with h | h
        · rcases ihE _ _ h with h | h
          · exact Or.inl h
          · exact Or.inr (by simp [hasVarReadE, h])
        · exact Or.inr (by simp [hasVarReadE, h])
      | Call callee paren arguments =>
        rcases ihEL _ _ h with h | h
        · rcases ihE _ _ h with h | h
          · exact Or.inl h
          · exact Or.inr (by simp [hasVarReadE, h])
        · exact Or.inr (by simp [hasVarReadE, h])
      | Get object name =>
        rcases ihE _ _ h with h | h
        · exact Or.inl h
        · exact Or.inr h
      | Grouping g =>
        rcases ihE _ _ h with h | h
        · exact Or.inl h
        · exact Or.inr h
      | Literal v => exact Or.inl h
      | Logical left op right =>
        rcases ihE _ _ h with h | h
        · rcases ihE _ _ h with h | h
          · exact Or.inl h
          · exact Or.inr (by simp [hasVarReadE, h])
        · exact Or.inr (by simp [hasVarReadE, h])
      | Set object name value =>
        rcases ihE _ _ h with h | h
        · rcases ihE _ _ h with h | h
          · exact Or.inl h
          · exact Or.inr (by simp [hasVarReadE, h])
        · exact Or.inr (by simp [hasVarReadE, h])
      | This keyword =>
        simp only [Resolver.resolveExpr] at h
        split at h
        · rcases mem_msgs_rerror h with h | h
          · exact Or.inl h
          · exact absurd h c8Msg_ne_thisOutside
        · exact Or.inl (mem_msgs_resolveLocal h)
      | Unary op right =>
        rcases ihE _ _ h with h | h
        · exact Or.inl h
        · exact Or.inr h
      | Variable name => exact Or.inr rfl
    · intro s es h
      cases es with
      | nil => exact Or.inl h
      | cons e rest =>
        rcases ihEL _ _ h with h | h
        · rcases ihE _ _ h with h | h
          · exact Or.inl h
          · exact Or.inr (by simp [hasVarReadEL, h])
        · exact Or.inr (by simp [hasVarReadEL, h])

/-- C8 (amended: the message `resolver.rs` emits has no trailing
period).  At a variable-expression visit with the name mapped to
`false` in the innermost open scope the resolver appends exactly one
error carrying the read token and the message
"Can\x27t read local variable in its own initializer" and raises
`HAD_ERROR`; a variable visit in any other configuration leaves the
error sink and the flag unchanged; and a resolver run over any
statement list surfaces that message only when the tree contains a
variable read (counting a class statement\x27s superclass reference,
which the resolver reads as a variable). -/
theorem resolver_initializer_read_error :
    (∀ (fuel : Nat) (s : Resolver.RState) (name : Token)
        (scope : List (String × Bool)),
      s.scopes.getLast? = some scope →
      scope.lookup name.lexeme = some false →
      (Resolver.resolveExpr (fuel + 1) s (.Variable name)).errors
          = s.errors ++ [(name, c8Msg)] ∧
      (Resolver.resolveExpr (fuel + 1) s (.Variable name)).hadError = true) ∧
    (∀ (fuel : Nat) (s : Resolver.RState) (name : Token),
      (∀ scope, s.scopes.getLast? = some scope →
        scope.lookup name.lexeme ≠ some false) →
      (Resolver.resolveExpr (fuel + 1) s (.Variable name)).errors = s.errors ∧
      (Resolver.resolveExpr (fuel + 1) s (.Variable name)).hadError = s.hadError) ∧
    (∀ (fuel : Nat) (s : Resolver.RState) (stmts : List Stmt),
      c8Msg ∈ Resolver.msgs (Resolver.resolveStmts fuel s stmts) →
      c8Msg ∈ Resolver.msgs s ∨ hasVarReadSL stmts = true) := by
  refine ⟨?_, ?_, fun fuel => (resolver_c8_only_from_variable fuel).2.1⟩
  · intro fuel s name scope hg hl
    have hv : Resolver.resolveExpr (fuel + 1) s (.Variable name)
        = Resolver.resolveLocal (Resolver.rerror s name c8Msg) name := by
      simp only [Resolver.resolveExpr]
      rw [hg]
      dsimp only
      rw [if_pos hl]
      rfl
    rw [hv, resolveLocal_errors, resolveLocal_hadError]
    exact ⟨rfl, rfl⟩
  · intro fuel s name hne
    cases hg : s.scopes.getLast? with
    | none =>
      have hv : Resolver.resolveExpr (fuel + 1) s (.Variable name) = s := by
        simp only [Resolver.resolveExpr]
        rw [hg]
      rw [hv]
      exact ⟨rfl, rfl⟩
    | some scope =>
      have hv : Resolver.resolveExpr (fuel + 1) s (.Variable name)
          = Resolver.resolveLocal s name := by
        simp only [Resolver.resolveExpr]
        rw [hg]
        dsimp only
        rw [if_neg (hne scope hg)]
      rw [hv, resolveLocal_errors, resolveLocal_hadError]
      exact ⟨rfl, rfl⟩

/-- C8 (counterexample to the spec\x27s exact message): resolving
`\x7b var a = a; \x7d` emits exactly one error, at the initializer
read of `a`, and its message differs from the spec\x27s — the source
string has no trailing period. -/
theorem resolver_initializer_message_counterexample :
    (Resolver.resolveStmts 10 Resolver.initRState c8Prog).errors
        = [(aReadTok, c8Msg)] ∧
    (Resolver.resolveStmts 10 Resolver.initRState c8Prog).hadError = true ∧
    c8Msg ≠ "Can\x27t read local variable in its own initializer." :=
  ⟨rfl, rfl, by decide⟩

/-- Witness for the C8 theorem at a concrete input: with the innermost
scope holding `a ↦ false`, visiting the read of `a` records exactly the
period-less message on the read token and raises the flag. -/
theorem resolver_initializer_read_error_witness :
    (Resolver.resolveExpr 3
        { Resolver.initRState with scopes := [[("a", false)]] }
        (.Variable aReadTok)).errors = [(aReadTok, c8Msg)] ∧
    (Resolver.resolveExpr 3
        { Resolver.initRState with scopes := [[("a", false)]] }
        (.Variable aReadTok)).hadError = true :=
  resolver_initializer_read_error.1 2
    { Resolver.initRState with scopes := [[("a", false)]] } aReadTok
    [("a", false)] rfl rfl

end Lox
